import Mathlib

/-!
# LogMonitoringAPI: request pipeline of `main.go`

A shallow embedding of `src/main.go` (package `main` of
`mustafa-bagci/LogMonitoringAPI`): the bearer-token gate `authMiddleware`, the
`login` handler, the CRUD handlers over the `logs` table, the metrics wrapper
`measureRequest`, the router built in `main`, and the shutdown step of `main`.

Library code the program calls (gin, golang-jwt/jwt/v4, database/sql, time) is
modelled as far as the program observes it.  Cryptography, JSON/base64 coding
and the calendar are parameters of the model (`JWT`, `Env`).
-/

namespace LogMonitoringAPI

/-! ## Go runtime: `time` and `strings` -/

/-- Go `time.Time`, as nanoseconds since the Unix epoch. -/
abbrev Time := Int

/-- Go `time.Second`, in nanoseconds. -/
def Second : Int := 1000000000

/-- Go `time.Hour`, in nanoseconds. -/
def Hour : Int := 3600 * Second

/-- Go `Time.Truncate(d)`: `t` rounded down to a multiple of `d`.  For `d` a
whole number of seconds the multiples counted from the zero Time and from the
Unix epoch coincide. -/
def Truncate (t : Time) (d : Int) : Time := t - t % d

/-- Go `Time.Before`. -/
def Before (t u : Time) : Bool := decide (t < u)

/-- Go `strings.Split(s, sep)` for a one-character separator, on the characters
of the string: the pieces between consecutive separators, empty pieces kept. -/
def splitChars (sep : Char) : List Char → List (List Char)
  | [] => [[]]
  | c :: cs =>
    if c = sep then [] :: splitChars sep cs
    else
      match splitChars sep cs with
      | [] => [[c]]
      | p :: ps => (c :: p) :: ps

/-- Go `strings.Split(s, sep)` for a one-character separator. -/
def Split (s : String) (sep : Char) : List String :=
  (splitChars sep s.data).map String.mk

/-! ## `golang-jwt/jwt/v4` -/

/-- The `Claims` struct of `main.go`: `Username` plus the embedded
`jwt.RegisteredClaims`, of which the three time fields are kept (the others are
never read).  Each is a `*jwt.NumericDate`: `none` is the nil pointer of an
absent claim. -/
structure Claims where
  Username : String
  ExpiresAt : Option Time
  NotBefore : Option Time := none
  IssuedAt : Option Time := none
  deriving DecidableEq, Repr

/-- The `jwt.Token` that `Parser.ParseUnverified` decodes from the three
segments of a token string. -/
structure Token where
  /-- The `alg` of the header segment. -/
  Method : String
  Claims : Claims
  /-- The first two segments, over which the signature is computed. -/
  signingInput : String
  Signature : String
  Valid : Bool := false
  deriving DecidableEq, Repr

/-- The coding and cryptographic primitives of the jwt library. -/
structure JWT where
  /-- `Token.SigningString` of an HS256 token with these claims. -/
  SigningString : Claims → String
  /-- `SigningMethodHS256.Sign` under a `[]byte` key. -/
  Sign : String → List UInt8 → String
  /-- `Parser.ParseUnverified`: `none` on a malformed token string. -/
  ParseUnverified : String → Option Token
  /-- `token.Method.Verify(signingInput, signature, key)` returned no error. -/
  Verify : Token → List UInt8 → Bool

/-- `jwt.TimePrecision`, by default one second. -/
def TimePrecision : Int := Second

/-- `jwt.NewNumericDate(t)`: the time truncated to `TimePrecision`. -/
def NewNumericDate (t : Time) : Option Time := some (Truncate t TimePrecision)

/-- `Token.SignedString(key)` of `jwt.NewWithClaims(jwt.SigningMethodHS256, claims)`:
the signing string, a dot, and its signature.  With a `[]byte` key neither step
returns an error. -/
def SignedString (jwt : JWT) (claims : Claims) (key : List UInt8) : Except String String :=
  let sstr := jwt.SigningString claims
  .ok (sstr ++ "." ++ jwt.Sign sstr key)

/-- The error flags of `jwt.ValidationError` that `ParseWithClaims` can raise. -/
inductive ValidationErrorKind
  | Malformed | SignatureInvalid | Expired | IssuedAt | NotValidYet
  deriving DecidableEq, Repr

/-- Library function `verifyExp`: an absent `exp` passes when not required. -/
def verifyExp (exp : Option Time) (now : Time) (required : Bool) : Bool :=
  match exp with
  | none => !required
  | some e => Before now e

/-- Library function `verifyIat`. -/
def verifyIat (iat : Option Time) (now : Time) (required : Bool) : Bool :=
  match iat with
  | none => !required
  | some i => decide (i ≤ now)

/-- Library function `verifyNbf`. -/
def verifyNbf (nbf : Option Time) (now : Time) (required : Bool) : Bool :=
  match nbf with
  | none => !required
  | some n => decide (n ≤ now)

/-- `RegisteredClaims.Valid()` with `now` the reading of `jwt.TimeFunc()`: the
flags raised, none of `exp`, `iat`, `nbf` being required. -/
def Claims.Valid (c : Claims) (now : Time) : List ValidationErrorKind :=
  (if verifyExp c.ExpiresAt now false then [] else [ValidationErrorKind.Expired]) ++
  (if verifyIat c.IssuedAt now false then [] else [ValidationErrorKind.IssuedAt]) ++
  (if verifyNbf c.NotBefore now false then [] else [ValidationErrorKind.NotValidYet])

/-- `jwt.ParseWithClaims(tokenString, claims, keyFunc)` with a key function
that returns `key`: decode, validate the claims, verify the signature.
`.ok token` is the return with a nil error, where `token.Valid` is set. -/
def ParseWithClaims (jwt : JWT) (tokenString : String) (key : List UInt8) (now : Time) :
    Except (List ValidationErrorKind) Token :=
  match jwt.ParseUnverified tokenString with
  | none => .error [ValidationErrorKind.Malformed]
  | some token =>
    let vErr := token.Claims.Valid now
    let vErr := if jwt.Verify token key then vErr else vErr ++ [ValidationErrorKind.SignatureInvalid]
    if vErr = [] then .ok { token with Valid := true } else .error vErr

/-! ## HTTP messages and the gin response writer -/

/-- A JSON value as the decoder of a string field sees it. -/
inductive JSONValue
  /-- A JSON string, with its escapes resolved. -/
  | string (s : String)
  | null
  /-- A number, boolean, array or object. -/
  | other
  deriving DecidableEq, Repr

/-- A request body as `json.Decoder.Decode` reads it: `malformed` when there
is no JSON value, a syntax error, or a top-level value that is neither an
object nor null; otherwise the members of the top-level object in the order
of the text, duplicates included, keys with their escapes resolved (a
top-level null reads as no members). -/
inductive Body
  | malformed
  | object (fields : List (String × JSONValue))
  deriving DecidableEq, Repr

/-- The parts of `http.Request` the program reads. -/
structure Request where
  Method : String
  Path : String
  Header : List (String × String) := []
  Body : Body := Body.object []
  deriving DecidableEq, Repr

/-- Lookup in a string map, the empty string when the key is absent. -/
def lookupD (m : List (String × String)) (key : String) : String :=
  match m.lookup key with
  | some v => v
  | none => ""

/-- Replace or add a key of a string map. -/
def setKey (m : List (String × String)) (key value : String) : List (String × String) :=
  (key, value) :: m.filter (fun kv => kv.1 != key)

/-- The `LogResponse` struct. -/
structure LogResponse where
  ID : Int
  Level : String
  Message : String
  Service : String
  CreatedAt : String
  deriving DecidableEq, Repr

/-- What a handler writes as response body. -/
inductive Payload
  | obj (fields : List (String × String))
  | logs (entries : List LogResponse)
  | text (s : String)
  deriving DecidableEq, Repr

/-- The gin `responseWriter`: status (200 until set), whether the header has
been written, the header map and the body written so far. -/
structure ResponseWriter where
  status : Nat := 200
  written : Bool := false
  header : List (String × String) := []
  body : List Payload := []
  deriving DecidableEq, Repr

/-- Method `responseWriter.WriteHeader(code)`: ignored once the header is written. -/
def ResponseWriter.WriteHeader (w : ResponseWriter) (code : Nat) : ResponseWriter :=
  if w.written then w else { w with status := code }

/-- The handler functions that `main.go` and `main_test.go` put on routes. -/
inductive Handler
  | Logger
  | Recovery
  | swagger
  | securityHeaders
  | promhttp
  | health
  | authMiddleware
  | login
  | addLog
  | getLogsHandler
  | deleteLogHandler
  | updateLogHandler
  | patchLogHandler
  | measureRequest (handler : Handler)
  deriving DecidableEq, Repr

/-- Constant `abortIndex` of gin. -/
def abortIndex : Nat := 63

/-- The fields of `gin.Context` the program uses. -/
structure Context where
  Request : Request
  Writer : ResponseWriter := {}
  Keys : List (String × String) := []
  Params : List (String × String) := []
  handlers : List Handler := []
  /-- The position in `handlers`; `none` is the initial -1. -/
  index : Option Nat := none
  fullPath : String := ""
  deriving DecidableEq, Repr

/-- `c.GetHeader(key)`. -/
def Context.GetHeader (c : Context) (key : String) : String := lookupD c.Request.Header key

/-- `c.Header(key, value)`: set the response header, or delete it when the
value is empty. -/
def Context.SetHeader (c : Context) (key value : String) : Context :=
  if value = "" then
    { c with Writer := { c.Writer with header := c.Writer.header.filter (fun kv => kv.1 != key) } }
  else { c with Writer := { c.Writer with header := setKey c.Writer.header key value } }

/-- Library function `writeContentType` of gin: set `Content-Type` unless the
header map has one. -/
def writeContentType (header : List (String × String)) (value : String) : List (String × String) :=
  match header.lookup "Content-Type" with
  | some _ => header
  | none => ("Content-Type", value) :: header

/-- `c.JSON(code, obj)`: set the status, the content type, and write the body. -/
def Context.JSON (c : Context) (code : Nat) (obj : Payload) : Context :=
  let w := c.Writer.WriteHeader code
  { c with Writer := { w with
      header := writeContentType w.header "application/json; charset=utf-8"
      body := w.body ++ [obj]
      written := true } }

/-- `c.Abort()`. -/
def Context.Abort (c : Context) : Context := { c with index := some abortIndex }

/-- `c.IsAborted()`. -/
def Context.IsAborted (c : Context) : Bool :=
  match c.index with
  | none => false
  | some i => decide (abortIndex ≤ i)

/-- `c.AbortWithStatus(code)`: set the status, write the header, abort. -/
def Context.AbortWithStatus (c : Context) (code : Nat) : Context :=
  let w := c.Writer.WriteHeader code
  { c with Writer := { w with written := true }, index := some abortIndex }

/-- `c.Set(key, value)`. -/
def Context.Set (c : Context) (key value : String) : Context :=
  { c with Keys := setKey c.Keys key value }

/-- `c.Param(key)`. -/
def Context.Param (c : Context) (key : String) : String := lookupD c.Params key

/-- The increment `c.index++`. -/
def Context.incr (c : Context) : Context :=
  { c with index := match c.index with
                    | none => some 0
                    | some i => some (i + 1) }

/-- The loop condition `c.index < len(c.handlers)` with the handler at that index. -/
def Context.current (c : Context) : Option Handler :=
  match c.index with
  | none => none
  | some i => c.handlers.get? i

/-! ## The `logs` table, the metric vectors, and the environment of a request -/

/-- A row of the `logs` table, every column nullable as `getLogsHandler` scans it. -/
structure Row where
  id : Option Int
  level : Option String
  message : Option String
  service : Option String
  created_at : Option Time
  deriving DecidableEq, Repr

/-- The database behind `db`: the rows of `logs`, the next value of the id
sequence, and the column defaults of `level` and `service` (the schema is not
part of the program). -/
structure Store where
  rows : List Row := []
  nextId : Int := 1
  levelDefault : Option String := none
  serviceDefault : Option String := none
  deriving DecidableEq, Repr

/-- The calendar fields of a time in its location, as `Time.Format` reads them. -/
structure Civil where
  year : Int
  month : Nat
  day : Nat
  hour : Nat
  min : Nat
  sec : Nat
  /-- Zone offset, seconds east of UTC. -/
  offset : Int
  deriving DecidableEq, Repr

/-- A prometheus `CounterVec`: the value of each label tuple that was touched. -/
abbrev CounterVec := List (List String × Nat)

/-- `v.WithLabelValues(labels...).Inc()`. -/
def CounterVec.Inc : CounterVec → List String → CounterVec
  | [], labels => [(labels, 1)]
  | (l, n) :: rest, labels =>
    if l = labels then (l, n + 1) :: rest else (l, n) :: CounterVec.Inc rest labels

/-- The value of the sample with these labels (0 when never touched). -/
def CounterVec.value : CounterVec → List String → Nat
  | [], _ => 0
  | (l, n) :: rest, labels => if l = labels then n else CounterVec.value rest labels

/-- The sum of the samples of `http_requests_total` whose method and endpoint
labels are the given ones, over all status labels. -/
def CounterVec.total : CounterVec → String → String → Nat
  | [], _, _ => 0
  | (l, n) :: rest, method, endpoint =>
    (if l.take 2 = [method, endpoint] then n else 0) + CounterVec.total rest method endpoint

/-- What a request takes from outside the program: the library primitives, the
signing key, clock readings, and the behaviour of the collaborators. -/
structure Env where
  jwt : JWT
  jwtKey : List UInt8
  /-- The reading of `time.Now()` in `login` and in `authMiddleware`. -/
  now : Time
  /-- The reading of `jwt.TimeFunc()` inside `ParseWithClaims`; the gate reads
  `time.Now()` after it. -/
  parseNow : Time
  /-- The value of `NOW()` in the database. -/
  dbNow : Time
  /-- The reading of `time.Since(start)` in `measureRequest`, in nanoseconds. -/
  elapsed : Nat := 0
  /-- The calendar fields of a time (calendar and location). -/
  Date : Time → Civil
  /-- Whether `db.Exec` returns an error. -/
  execErr : Bool := false
  /-- Whether `db.Query` returns an error. -/
  queryErr : Bool := false
  /-- The index of the row on which `rows.Scan` returns an error, if any. -/
  scanErrAt : Option Nat := none
  /-- The number of rows after which `rows.Next` stops on an error, if any. -/
  rowsErrAt : Option Nat := none
  /-- The cast of the database from a text parameter to the type of `id`. -/
  parseId : String → Option Int
  /-- Status and body written by the swagger handler. -/
  swaggerFiles : Request → Nat × String
  /-- Status and body written by the prometheus handler. -/
  exposition : Request → Nat × String

/-- The state a request runs in: its context, the package variables `db`,
`httpRequests` and `httpDuration`, and the record of the handlers invoked. -/
structure State where
  c : Context
  db : Store := {}
  httpRequests : CounterVec := []
  /-- The observations of `http_request_duration_seconds`, labels and nanoseconds. -/
  httpDuration : List (List String × Nat) := []
  /-- The handler functions called so far. -/
  invoked : List Handler := []
  deriving DecidableEq, Repr

/-- How a call ends: it returns, it panics, or the model ran out of fuel. -/
inductive Result
  | ok (s : State)
  | panic (s : State)
  | outOfFuel
  deriving DecidableEq, Repr

/-- Write a JSON object with `c.JSON`. -/
def State.JSON (s : State) (code : Nat) (fields : List (String × String)) : State :=
  { s with c := s.c.JSON code (Payload.obj fields) }

/-! ## `time.Format(time.RFC3339)` -/

/-- Library function `appendInt` of package time: decimal, zero-padded to `width`. -/
def appendInt (x : Int) (width : Nat) : String :=
  let digits := Nat.repr x.natAbs
  let padded := String.mk (List.replicate (width - digits.length) '0') ++ digits
  if x < 0 then "-" ++ padded else padded

/-- The `Z07:00` element of the layout. -/
def formatZone (offset : Int) : String :=
  if offset = 0 then "Z"
  else
    let zone := Int.tdiv offset 60
    if zone < 0 then "-" ++ appendInt (Int.tdiv (-zone) 60) 2 ++ ":" ++ appendInt (Int.tmod (-zone) 60) 2
    else "+" ++ appendInt (Int.tdiv zone 60) 2 ++ ":" ++ appendInt (Int.tmod zone 60) 2

/-- `t.Format(time.RFC3339)`, layout `2006-01-02T15:04:05Z07:00`. -/
def FormatRFC3339 (env : Env) (t : Time) : String :=
  let d := env.Date t
  appendInt d.year 4 ++ "-" ++ appendInt d.month 2 ++ "-" ++ appendInt d.day 2 ++ "T" ++
    appendInt d.hour 2 ++ ":" ++ appendInt d.min 2 ++ ":" ++ appendInt d.sec 2 ++ formatZone d.offset

/-- The zero `time.Time` (January 1, year 1, 00:00:00 UTC). -/
def zeroTime : Time := -62135596800 * Second

/-! ## The handlers of `main.go` -/

/-- The `Credentials` struct. -/
structure Credentials where
  Username : String
  Password : String
  deriving DecidableEq, Repr

/-- The `LogEntry` struct. -/
structure LogEntry where
  Message : String
  deriving DecidableEq, Repr

/-- The representative of the simple case folding class of a character, for
the classes that hold an ASCII letter: the lower-case letter, also for the
Kelvin sign (class of `k`) and the long s (class of `s`). -/
def foldChar (c : Char) : Char :=
  if c = Char.ofNat 0x212A then 'k'
  else if c = Char.ofNat 0x017F then 's'
  else c.toLower

/-- How `encoding/json` matches an object key with a struct field name made of
ASCII letters: equality under simple case folding (`bytes.EqualFold`). -/
def EqualFold (key name : String) : Bool :=
  key.data.map foldChar == name.data.map foldChar

/-- The decoding of the members of an object into the string field `name`,
in the order of the text: a member whose key matches sets the field when its
value is a string, leaves it when it is null, and raises the type error flag
otherwise; later members overwrite earlier ones. -/
def decodeString (name : String) : List (String × JSONValue) → String × Bool → String × Bool
  | [], acc => acc
  | (key, v) :: rest, (cur, err) =>
    if EqualFold key name then
      match v with
      | JSONValue.string t => decodeString name rest (t, err)
      | JSONValue.null => decodeString name rest (cur, err)
      | JSONValue.other => decodeString name rest (cur, true)
    else decodeString name rest (cur, err)

/-- `c.BindJSON(&creds)`: `none` when the decoder returns an error; absent
fields keep the zero value. -/
def bindCredentials : Body → Option Credentials
  | Body.malformed => none
  | Body.object fields =>
    let username := decodeString "username" fields ("", false)
    let password := decodeString "password" fields ("", false)
    if username.2 || password.2 then none
    else some { Username := username.1, Password := password.1 }

/-- `c.BindJSON(&logEntry)`. -/
def bindLogEntry : Body → Option LogEntry
  | Body.malformed => none
  | Body.object fields =>
    let message := decodeString "message" fields ("", false)
    if message.2 then none else some { Message := message.1 }

/-- What `c.BindJSON` does to the context on a decoding error:
`c.AbortWithError(400, err)`. -/
def State.bindFailed (s : State) : State := { s with c := s.c.AbortWithStatus 400 }

/-- Lines 122 to 128 of `login`: the claims that are signed. -/
def loginClaims (env : Env) (creds : Credentials) : Claims :=
  let expirationTime := env.now + 24 * Hour
  { Username := creds.Username, ExpiresAt := NewNumericDate expirationTime }

/-- Function `login` of `main.go`. -/
def login (env : Env) (s : State) : State :=
  match bindCredentials s.c.Request.Body with
  | none => s.bindFailed.JSON 400 [("error", "Invalid request")]
  | some creds =>
    if creds.Username ≠ "admin" ∨ creds.Password ≠ "password" then
      s.JSON 401 [("error", "Invalid credentials")]
    else
      let claims := loginClaims env creds
      match SignedString env.jwt claims env.jwtKey with
      | .error _ => s.JSON 500 [("error", "Error generating token")]
      | .ok tokenString => s.JSON 200 [("token", tokenString)]

/-- `c.Abort()` on the context of a state. -/
def State.Abort (s : State) : State := { s with c := s.c.Abort }

/-- How `authMiddleware` leaves a request. -/
inductive Gate
  /-- It wrote a response, called `c.Abort()` and returned. -/
  | rejected (s : State)
  /-- It panicked (nil pointer dereference). -/
  | panicked (s : State)
  /-- It bound the username and calls `c.Next()` on this state. -/
  | passed (s : State)
  deriving DecidableEq, Repr

/-- Lines 71 to 89 of `authMiddleware`: parse and verify the token string, then
compare `claims.ExpiresAt.Time` with `time.Now()`.  Reading the field `Time`
through a nil `ExpiresAt` panics. -/
def verifyToken (env : Env) (s : State) (tokenString : String) : Gate :=
  match ParseWithClaims env.jwt tokenString env.jwtKey env.parseNow with
  | .error _ => .rejected (s.JSON 401 [("error", "Invalid token")]).Abort
  | .ok token =>
    match token.Claims.ExpiresAt with
    | none => .panicked s
    | some exp =>
      if Before exp env.now then .rejected (s.JSON 401 [("error", "Token expired")]).Abort
      else .passed { s with c := s.c.Set "username" token.Claims.Username }

/-- The gate `authMiddleware` of `main.go` (lines 56 to 90). -/
def authMiddleware (env : Env) (s : State) : Gate :=
  let authHeader := s.c.GetHeader "Authorization"
  if authHeader = "" then .rejected (s.JSON 401 [("error", "Missing token")]).Abort
  else
    let parts := Split authHeader ' '
    if parts.length ≠ 2 ∨ parts.headD "" ≠ "Bearer" then
      .rejected (s.JSON 401 [("error", "Invalid token format")]).Abort
    else verifyToken env s (parts.getD 1 "")

/-- Statement `INSERT INTO logs (message, created_at) VALUES ($1, NOW())`. -/
def Store.insert (db : Store) (env : Env) (message : String) : Option Store :=
  if env.execErr then none
  else some { db with
    rows := db.rows ++ [{ id := some db.nextId, level := db.levelDefault, message := some message,
                          service := db.serviceDefault, created_at := some env.dbNow }]
    nextId := db.nextId + 1 }

/-- Statement `DELETE FROM logs WHERE id = $1`. -/
def Store.delete (db : Store) (env : Env) (id : String) : Option Store :=
  if env.execErr then none
  else
    match env.parseId id with
    | none => none
    | some n => some { db with rows := db.rows.filter (fun r => r.id != some n) }

/-- Statement `UPDATE logs SET message = $1 WHERE id = $2`. -/
def Store.update (db : Store) (env : Env) (message id : String) : Option Store :=
  if env.execErr then none
  else
    match env.parseId id with
    | none => none
    | some n =>
      some { db with rows := db.rows.map (fun r => if r.id = some n then { r with message := some message } else r) }

/-- Function `addLog` of `main.go`. -/
def addLog (env : Env) (s : State) : State :=
  match bindLogEntry s.c.Request.Body with
  | none => s.bindFailed.JSON 400 [("error", "Invalid request body")]
  | some logEntry =>
    if logEntry.Message = "" then s.JSON 400 [("error", "Message cannot be empty")]
    else
      match s.db.insert env logEntry.Message with
      | none => s.JSON 500 [("error", "Failed to insert log")]
      | some db => { s with db := db }.JSON 201 [("message", "Log added successfully")]

/-- The body of the `rows.Next()` loop of `getLogsHandler`: the `LogResponse`
of a scanned row, a NULL column giving the zero value. -/
def toLogResponse (env : Env) (r : Row) : LogResponse :=
  { ID := r.id.getD 0
    Level := r.level.getD ""
    Message := r.message.getD ""
    Service := r.service.getD ""
    CreatedAt := FormatRFC3339 env (r.created_at.getD zeroTime) }

/-- The `rows.Next()` loop of `getLogsHandler` from row number `i` on: `none`
when a `rows.Scan` fails. -/
def scanRows (env : Env) : Nat → List Row → List LogResponse → Option (List LogResponse)
  | _, [], logs => some logs
  | i, r :: rs, logs =>
    if env.scanErrAt = some i then none
    else scanRows env (i + 1) rs (logs ++ [toLogResponse env r])

/-- The rows that `rows.Next()` delivers. -/
def Store.cursor (db : Store) (env : Env) : List Row :=
  match env.rowsErrAt with
  | none => db.rows
  | some n => db.rows.take n

/-- Function `getLogsHandler` of `main.go`. -/
def getLogsHandler (env : Env) (s : State) : State :=
  if env.queryErr then s.JSON 500 [("error", "Error retrieving logs")]
  else
    match scanRows env 0 (s.db.cursor env) [] with
    | none => s.JSON 500 [("error", "Error scanning logs")]
    | some logs => { s with c := s.c.JSON 200 (Payload.logs logs) }

/-- Function `deleteLogHandler` of `main.go`. -/
def deleteLogHandler (env : Env) (s : State) : State :=
  let id := s.c.Param "id"
  if id = "" then s.JSON 400 [("error", "ID is required")]
  else
    match s.db.delete env id with
    | none => s.JSON 500 [("error", "Failed to delete log")]
    | some db => { s with db := db }.JSON 200 [("message", "Log deleted successfully")]

/-- Function `updateLogHandler` of `main.go`. -/
def updateLogHandler (env : Env) (s : State) : State :=
  let id := s.c.Param "id"
  if id = "" then s.JSON 400 [("error", "ID is required")]
  else
    match bindLogEntry s.c.Request.Body with
    | none => s.bindFailed.JSON 400 [("error", "Invalid request body")]
    | some logEntry =>
      if logEntry.Message = "" then s.JSON 400 [("error", "Message cannot be empty")]
      else
        match s.db.update env logEntry.Message id with
        | none => s.JSON 500 [("error", "Failed to update log")]
        | some db => { s with db := db }.JSON 200 [("message", "Log updated successfully")]

/-- Function `patchLogHandler` of `main.go`. -/
def patchLogHandler (env : Env) (s : State) : State :=
  let id := s.c.Param "id"
  if id = "" then s.JSON 400 [("error", "ID is required")]
  else
    match bindLogEntry s.c.Request.Body with
    | none => s.bindFailed.JSON 400 [("error", "Invalid request body")]
    | some logEntry =>
      if logEntry.Message = "" then s.JSON 400 [("error", "Message cannot be empty")]
      else
        match s.db.update env logEntry.Message id with
        | none => s.JSON 500 [("error", "Failed to patch log")]
        | some db => { s with db := db }.JSON 200 [("message", "Log patched successfully")]

/-! ## The handler chain of gin -/

/-- The recording done by `measureRequest` after the wrapped handler returned. -/
def State.observe (s : State) (env : Env) : State :=
  { s with
    httpRequests := s.httpRequests.Inc [s.c.Request.Method, s.c.fullPath, toString s.c.Writer.status]
    httpDuration := s.httpDuration ++ [([s.c.Request.Method, s.c.fullPath], env.elapsed)] }

/-- Write a status and a text body, as the wrapped `http.Handler`s do. -/
def State.writeText (s : State) (r : Nat × String) : State :=
  let w := s.c.Writer.WriteHeader r.1
  { s with c := { s.c with Writer := { w with body := w.body ++ [Payload.text r.2], written := true } } }

/-- The three `c.Header` calls of the function literal that `main` passes to
`r.Use` (lines 410 to 412). -/
def State.setSecurityHeaders (s : State) : State :=
  { s with c := ((s.c.SetHeader "X-Content-Type-Options" "nosniff").SetHeader
                   "X-Frame-Options" "DENY").SetHeader "X-XSS-Protection" "1; mode=block" }

/-- Record that a handler function is entered. -/
def State.enter (s : State) (h : Handler) : State := { s with invoked := s.invoked ++ [h] }

/-- A call of a handler function on the context; `next` is what `c.Next()`
does at this point of the chain.  `Logger` and `Recovery` are the middleware of
`gin.Default()`; `securityHeaders` is the function literal passed to `r.Use`
in `main`; `measureRequest handler` calls `handler(c)` and then records. -/
def call (env : Env) (next : State → Result) (h : Handler) (s0 : State) : Result :=
  let s := s0.enter h
  match h with
  | .Logger => next s
  | .Recovery =>
    match next s with
    | .panic s1 => .ok { s1 with c := s1.c.AbortWithStatus 500 }
    | r => r
  | .swagger => .ok (s.writeText (env.swaggerFiles s.c.Request))
  | .securityHeaders => next s.setSecurityHeaders
  | .promhttp => .ok (s.writeText (env.exposition s.c.Request))
  | .health => .ok (s.JSON 200 [("status", "ok")])
  | .authMiddleware =>
    match authMiddleware env s with
    | .rejected s1 => .ok s1
    | .panicked s1 => .panic s1
    | .passed s1 => next s1
  | .login => .ok (login env s)
  | .addLog => .ok (addLog env s)
  | .getLogsHandler => .ok (getLogsHandler env s)
  | .deleteLogHandler => .ok (deleteLogHandler env s)
  | .updateLogHandler => .ok (updateLogHandler env s)
  | .patchLogHandler => .ok (patchLogHandler env s)
  | .measureRequest handler =>
    match call env next handler s with
    | .ok s1 => .ok (s1.observe env)
    | r => r

/-- The increment `c.index++` on the context of a state. -/
def State.incr (s : State) : State := { s with c := s.c.incr }

/-- The loop of `Context.Next`, `for c.index < len(c.handlers)`: call the
handler at the index, increment, repeat.  A handler that calls `c.Next()`
increments the index and enters the loop again. -/
def run (env : Env) : Nat → State → Result
  | 0, _ => .outOfFuel
  | fuel + 1, s =>
    match s.c.current with
    | none => .ok s
    | some h =>
      match call env (fun s1 => run env fuel s1.incr) h s with
      | .ok s2 => run env fuel s2.incr
      | r => r

/-- Method `Context.Next`: `c.index++`, then the loop. -/
def Next (env : Env) (fuel : Nat) (s : State) : Result := run env fuel s.incr

/-- The function of `main.go` behind a handler that never calls `c.Next()`. -/
def Handler.body : Handler → Option (Env → State → State)
  | .login => some LogMonitoringAPI.login
  | .addLog => some LogMonitoringAPI.addLog
  | .getLogsHandler => some LogMonitoringAPI.getLogsHandler
  | .deleteLogHandler => some LogMonitoringAPI.deleteLogHandler
  | .updateLogHandler => some LogMonitoringAPI.updateLogHandler
  | .patchLogHandler => some LogMonitoringAPI.patchLogHandler
  | _ => none

/-- The loop of the chain has nothing left to run: the index is past the end. -/
def State.finished (s : State) : Prop := ∃ i, s.c.index = some i ∧ s.c.handlers.length ≤ i

/-- The response carries the three security headers. -/
def ResponseWriter.hasSecurityHeaders (w : ResponseWriter) : Prop :=
  w.header.lookup "X-Content-Type-Options" = some "nosniff" ∧
  w.header.lookup "X-Frame-Options" = some "DENY" ∧
  w.header.lookup "X-XSS-Protection" = some "1; mode=block"

/-- What a handler body leaves alone: `t` has the metric vectors, the request,
the route, the chain and the record of `s`, its index is that of `s` or
`abortIndex`, and it keeps the security headers of `s`. -/
def State.frame (s t : State) : Prop :=
  t.httpRequests = s.httpRequests ∧ t.httpDuration = s.httpDuration ∧
  t.c.Request = s.c.Request ∧ t.c.fullPath = s.c.fullPath ∧
  t.c.handlers = s.c.handlers ∧ t.invoked = s.invoked ∧
  (t.c.index = s.c.index ∨ t.c.index = some abortIndex) ∧
  (s.c.Writer.hasSecurityHeaders → t.c.Writer.hasSecurityHeaders)

/-- The gate rejects a request: on a fresh context for it, `authMiddleware`
writes a response and aborts. -/
def rejectedByGate (env : Env) (req : Request) : Prop :=
  ∃ s1, authMiddleware env { c := { Request := req } } = Gate.rejected s1

/-- The gate lets a request through: on a fresh context for it, `authMiddleware`
goes on to `c.Next()`. -/
def passesGate (env : Env) (req : Request) : Prop :=
  ∃ s1, authMiddleware env { c := { Request := req } } = Gate.passed s1

/-! ## The router -/

/-- A registered route: method, path template and the combined handler chain. -/
structure Route where
  method : String
  path : String
  handlers : List Handler
  deriving DecidableEq, Repr

/-- A `gin.RouterGroup`: the middleware of the group. -/
structure RouterGroup where
  Handlers : List Handler
  deriving DecidableEq, Repr

/-- The parts of `gin.Engine`: the root group, the registered routes and the
chain run when no route matches. -/
structure Engine where
  /-- The embedded root RouterGroup. -/
  root : RouterGroup
  routes : List Route := []
  allNoRoute : List Handler := []
  deriving DecidableEq, Repr

/-- `gin.Default()`: an engine with `Logger` and `Recovery` in use. -/
def Default : Engine :=
  { root := { Handlers := [Handler.Logger, Handler.Recovery] }
    allNoRoute := [Handler.Logger, Handler.Recovery] }

/-- `engine.Use(middleware...)`: append to the root group and rebuild the
no-route chain.  Routes registered before are not touched. -/
def Engine.Use (e : Engine) (middleware : List Handler) : Engine :=
  { e with root := { Handlers := e.root.Handlers ++ middleware }
           allNoRoute := e.root.Handlers ++ middleware }

/-- `group.Use(middleware...)`. -/
def RouterGroup.Use (g : RouterGroup) (middleware : List Handler) : RouterGroup :=
  { Handlers := g.Handlers ++ middleware }

/-- `engine.Group("/")`: a group that starts from a copy of the root middleware. -/
def Engine.Group (e : Engine) : RouterGroup := { Handlers := e.root.Handlers }

/-- `group.handle(method, path, handlers)`: the chain of the route is the
middleware of the group at this moment followed by the handlers. -/
def Engine.handle (e : Engine) (g : RouterGroup) (method path : String) (handlers : List Handler) :
    Engine :=
  { e with routes := e.routes ++ [{ method := method, path := path, handlers := g.Handlers ++ handlers }] }

/-- The router that `main` builds, statement by statement (lines 403 to 436). -/
def mainRouter : Engine :=
  let r := Default
  let r := r.handle r.root "GET" "/swagger/*any" [Handler.swagger]
  let r := r.Use [Handler.securityHeaders]
  let r := r.handle r.root "GET" "/metrics" [Handler.promhttp]
  let r := r.handle r.root "GET" "/health" [Handler.health]
  let r := r.handle r.root "POST" "/login" [Handler.measureRequest Handler.login]
  let authRoutes := r.Group
  let authRoutes := authRoutes.Use [Handler.authMiddleware]
  let r := r.handle authRoutes "GET" "/logs" [Handler.measureRequest Handler.getLogsHandler]
  let r := r.handle authRoutes "POST" "/logs" [Handler.measureRequest Handler.addLog]
  let r := r.handle authRoutes "DELETE" "/logs/:id" [Handler.measureRequest Handler.deleteLogHandler]
  let r := r.handle authRoutes "PUT" "/logs/:id" [Handler.measureRequest Handler.updateLogHandler]
  let r := r.handle authRoutes "PATCH" "/logs/:id" [Handler.measureRequest Handler.patchLogHandler]
  r

/-- Match the segments of a path template against those of a request path: a
`:name` segment takes one non-empty segment, a `*name` segment takes the rest. -/
def matchSegs : List (List Char) → List (List Char) → Option (List (String × String))
  | [], [] => some []
  | [], _ :: _ => none
  | p :: ps, ss =>
    match p with
    | '*' :: name =>
      if ss = [] then none
      else some [(String.mk name, "/" ++ String.intercalate "/" (ss.map String.mk))]
    | ':' :: name =>
      match ss with
      | [] => none
      | seg :: rest =>
        if seg = [] then none
        else (matchSegs ps rest).map (fun params => (String.mk name, String.mk seg) :: params)
    | _ =>
      match ss with
      | [] => none
      | seg :: rest => if p = seg then matchSegs ps rest else none

/-- The parameters with which a request path matches a path template. -/
def matchPath (template path : String) : Option (List (String × String)) :=
  matchSegs (splitChars '/' template.data) (splitChars '/' path.data)

/-- The route of a request: the first registered route of its method whose
template matches its path (no two templates of `main` overlap). -/
def findRoute : List Route → String → String → Option (Route × List (String × String))
  | [], _, _ => none
  | r :: rest, method, path =>
    if r.method = method then
      match matchPath r.path path with
      | some params => some (r, params)
      | none => findRoute rest method path
    else findRoute rest method path

/-- `responseWriter.WriteHeaderNow()`. -/
def State.WriteHeaderNow (s : State) : State :=
  { s with c := { s.c with Writer := { s.c.Writer with written := true } } }

/-- `engine.ServeHTTP` on a fresh context: `s` gives the package variables the
request starts from.  A matched route runs its chain with `c.Next()` and then
writes the header; otherwise `serveError` runs the no-route chain under status
404 (the trailing-slash redirect of gin is not modelled). -/
def Engine.ServeHTTP (e : Engine) (env : Env) (s : State) (req : Request) : Result :=
  match findRoute e.routes req.Method req.Path with
  | some (route, params) =>
    let c : Context :=
      { Request := req, Params := params, handlers := route.handlers, fullPath := route.path }
    match Next env (route.handlers.length + 1) { s with c := c, invoked := [] } with
    | .ok s1 => .ok s1.WriteHeaderNow
    | r => r
  | none =>
    let c : Context := { Request := req, handlers := e.allNoRoute, Writer := { status := 404 } }
    match Next env (e.allNoRoute.length + 1) { s with c := c, invoked := [] } with
    | .ok s1 =>
      if s1.c.Writer.written then .ok s1
      else if s1.c.Writer.status = 404 then
        .ok ({ s1 with c := s1.c.SetHeader "Content-Type" "text/plain" }.writeText (404, "404 page not found"))
      else .ok s1.WriteHeaderNow
    | r => r

/-- Requests served one after another, each in its own environment. -/
def Engine.serveAll (e : Engine) : State → List (Env × Request) → Result
  | s, [] => .ok s
  | s, (env, req) :: rest =>
    match e.ServeHTTP env s req with
    | .ok s1 => e.serveAll s1 rest
    | r => r

/-! ## The shutdown step of `main` -/

/-- How the process ends. -/
inductive Exit
  /-- Function `main` returns: exit status 0. -/
  | returned
  /-- Function `log.Fatal` printed and called `os.Exit(1)`. -/
  | fatal
  deriving DecidableEq, Repr

/-- The lines logged from the signal on, and how the process ends. -/
structure ProcessEnd where
  log : List String
  exit : Exit
  deriving DecidableEq, Repr

/-- `srv.Shutdown(ctx)` under the 5-second context: the context error when the
window elapses with requests still outstanding, nil otherwise. -/
def Shutdown (outstandingAtDeadline : Bool) : Option String :=
  if outstandingAtDeadline then some "context deadline exceeded" else none

/-- Lines 458 to 466 of `main`, after the signal arrived; `shutdownErr` is what
`srv.Shutdown(ctx)` returns. -/
def shutdownStep (shutdownErr : Option String) : ProcessEnd :=
  let log := ["Shutting down server..."]
  match shutdownErr with
  | some err => { log := log ++ ["Server forced to shutdown:" ++ err], exit := Exit.fatal }
  | none => { log := log ++ ["Server exiting"], exit := Exit.returned }

/-! ## A concrete environment, for evaluating the model -/

/-- A signing key. -/
def demoKey : List UInt8 := [115, 101, 99, 114, 101, 116]

/-- A toy instance of the jwt primitives: three token strings decode, the
first being the one `login` issues at clock reading 1000 s. -/
def demoJWT : JWT where
  SigningString c := "hdr." ++ c.Username
  Sign _ key := if key = demoKey then "good" else "bad"
  ParseUnverified t :=
    if t = "hdr.admin.good" then
      some { Method := "HS256", Claims := { Username := "admin", ExpiresAt := some (87400 * Second) },
             signingInput := "hdr.admin", Signature := "good" }
    else if t = "hdr.stale.good" then
      some { Method := "HS256", Claims := { Username := "admin", ExpiresAt := some (500 * Second) },
             signingInput := "hdr.stale", Signature := "good" }
    else if t = "hdr.noexp.good" then
      some { Method := "HS256", Claims := { Username := "admin", ExpiresAt := none },
             signingInput := "hdr.noexp", Signature := "good" }
    else none
  Verify token key := token.Signature == (if key = demoKey then "good" else "bad")

/-- An environment at clock reading 1000 s with a healthy database. -/
def demoEnv : Env where
  jwt := demoJWT
  jwtKey := demoKey
  now := 1000 * Second
  parseNow := 1000 * Second
  dbNow := 1000 * Second
  Date _ := { year := 2025, month := 2, day := 26, hour := 20, min := 26, sec := 6, offset := 0 }
  parseId t := if t = "1" then some 1 else if t = "2" then some 2 else none
  swaggerFiles _ := (200, "swagger")
  exposition _ := (200, "metrics")

/-- The state in which the chain of route POST /logs of `main` reaches the gate,
for a request with the given Authorization header. -/
def gateState (auth : String) : State :=
  { c := { Request := { Method := "POST", Path := "/logs", Header := [("Authorization", auth)],
                        Body := Body.object [("message", JSONValue.string "hello")] }
           handlers := [Handler.Logger, Handler.Recovery, Handler.securityHeaders,
                        Handler.authMiddleware, Handler.measureRequest Handler.addLog]
           index := some 3
           fullPath := "/logs" }
    invoked := [Handler.Logger, Handler.Recovery, Handler.securityHeaders] }

/-- The state in which `login` is entered for a body with these credentials. -/
def loginState (username password : String) : State :=
  { c := { Request := { Method := "POST", Path := "/login",
                        Body := Body.object [("username", JSONValue.string username),
                                            ("password", JSONValue.string password)] }
           fullPath := "/login" } }

/-- The state in which a handler is entered for a request with this body. -/
def bodyState (body : Body) : State :=
  { c := { Request := { Method := "POST", Path := "/login", Body := body }, fullPath := "/login" } }

/-- The environment `demoEnv` with a failing `db.Query`. -/
def demoEnvQueryErr : Env := { demoEnv with queryErr := true }

/-- The environment `demoEnv` at clock reading 1.5 s. -/
def demoEnvHalfSecond : Env := { demoEnv with now := 1500000000 }

/-- The state in which `getLogsHandler` is entered after the `addLog` of
`gateState` was served. -/
def afterAddState : State :=
  { c := { Request := { Method := "GET", Path := "/logs" }, fullPath := "/logs" }
    db := (addLog demoEnv (gateState "")).db }

/-- The route POST /logs as `main` registers it. -/
def postLogsRoute : Route :=
  { method := "POST", path := "/logs"
    handlers := [Handler.Logger, Handler.Recovery, Handler.securityHeaders, Handler.authMiddleware,
                 Handler.measureRequest Handler.addLog] }

/-- A POST /logs request with the token that `login` issues in `demoEnv` and
the given message. -/
def postLogRequest (message : String) : Request :=
  { Method := "POST", Path := "/logs", Header := [("Authorization", "Bearer hdr.admin.good")],
    Body := Body.object [("message", JSONValue.string message)] }

/-- A state with an empty table and no samples, before any request. -/
def initState : State := { c := { Request := { Method := "", Path := "" } } }

/-! ## Facts about `strings.Split` -/

theorem splitChars_ne_nil (sep : Char) (l : List Char) : splitChars sep l ≠ [] := by
  cases l with
  | nil => simp [splitChars]
  | cons c cs =>
    unfold splitChars
    split
    · simp
    · split <;> simp

theorem splitChars_of_not_mem (sep : Char) (l : List Char) (h : sep ∉ l) :
    splitChars sep l = [l] := by
  induction l with
  | nil => rfl
  | cons c cs ih =>
    have hc : c ≠ sep := fun e => h (by simp [e])
    have hcs : sep ∉ cs := fun e => h (by simp [e])
    simp [splitChars, hc, ih hcs]

theorem splitChars_append_sep (sep : Char) (a b : List Char) (h : sep ∉ a) :
    splitChars sep (a ++ sep :: b) = a :: splitChars sep b := by
  induction a with
  | nil => simp [splitChars]
  | cons c cs ih =>
    have hc : c ≠ sep := fun e => h (by simp [e])
    have hcs : sep ∉ cs := fun e => h (by simp [e])
    simp [splitChars, hc, ih hcs]

theorem splitChars_single (sep : Char) (l x : List Char) (h : splitChars sep l = [x]) :
    l = x ∧ sep ∉ l := by
  induction l generalizing x with
  | nil =>
    simp [splitChars] at h
    simp [h]
  | cons c cs ih =>
    by_cases hc : c = sep
    · simp [splitChars, hc] at h
      exact absurd h.2 (splitChars_ne_nil sep cs)
    · cases hs : splitChars sep cs with
      | nil => exact absurd hs (splitChars_ne_nil sep cs)
      | cons p ps =>
        simp [splitChars, hc, hs] at h
        obtain ⟨h1, h2⟩ := h
        subst h2
        obtain ⟨e1, e2⟩ := ih p hs
        subst e1
        refine ⟨by rw [← h1], ?_⟩
        intro hm
        rcases List.mem_cons.mp hm with e | e
        · exact hc e.symm
        · exact e2 e

theorem splitChars_pair (sep : Char) (l a b : List Char) (h : splitChars sep l = [a, b]) :
    l = a ++ sep :: b ∧ sep ∉ a ∧ sep ∉ b := by
  induction l generalizing a with
  | nil => simp [splitChars] at h
  | cons c cs ih =>
    by_cases hc : c = sep
    · simp [splitChars, hc] at h
      obtain ⟨h1, h2⟩ := h
      obtain ⟨e1, e2⟩ := splitChars_single sep cs b h2
      subst h1
      subst e1
      simp [hc, e2]
    · cases hs : splitChars sep cs with
      | nil => exact absurd hs (splitChars_ne_nil sep cs)
      | cons p ps =>
        simp [splitChars, hc, hs] at h
        obtain ⟨h1, h2⟩ := h
        subst h2
        obtain ⟨e1, e2, e3⟩ := ih p hs
        subst h1
        refine ⟨by rw [e1]; rfl, ?_, e3⟩
        intro hm
        rcases List.mem_cons.mp hm with e | e
        · exact hc e.symm
        · exact e2 e

theorem splitChars_bearer (tok : String) (hsp : ' ' ∉ tok.data) :
    splitChars ' ' ("Bearer " ++ tok).data = ["Bearer".data, tok.data] := by
  rw [String.data_append]
  have e : "Bearer ".data ++ tok.data = "Bearer".data ++ ' ' :: tok.data := rfl
  rw [e, splitChars_append_sep ' ' _ _ (by decide), splitChars_of_not_mem ' ' _ hsp]

/-- The split of a header gives two parts, the first `Bearer`, exactly when
the header is `Bearer`, one space, and a token without a space. -/
theorem split_bearer_iff (h : String) :
    ((Split h ' ').length = 2 ∧ (Split h ' ').headD "" = "Bearer") ↔
      ∃ tok : String, h = "Bearer " ++ tok ∧ ' ' ∉ tok.data := by
  constructor
  · rintro ⟨hlen, hhead⟩
    unfold Split at hlen hhead
    cases hs : splitChars ' ' h.data with
    | nil => simp [hs] at hlen
    | cons a rest =>
      cases rest with
      | nil => simp [hs] at hlen
      | cons b rest2 =>
        cases rest2 with
        | cons _ _ => simp [hs] at hlen
        | nil =>
          simp [hs] at hhead
          obtain ⟨e1, _, e3⟩ := splitChars_pair ' ' h.data a b hs
          refine ⟨String.mk b, ?_, e3⟩
          apply String.ext
          rw [String.data_append, e1]
          have : a = "Bearer".data := by rw [← hhead]
          rw [this]
          rfl
  · rintro ⟨tok, rfl, hsp⟩
    unfold Split
    rw [splitChars_bearer tok hsp]
    exact ⟨rfl, rfl⟩

theorem split_bearer_token (tok : String) (hsp : ' ' ∉ tok.data) :
    (Split ("Bearer " ++ tok) ' ').getD 1 "" = tok := by
  unfold Split
  rw [splitChars_bearer tok hsp]
  rfl

/-! ## The gate -/

theorem JSON_Abort_body (s : State) (code : Nat) (f : List (String × String)) :
    ((s.JSON code f).Abort).c.Writer.body = s.c.Writer.body ++ [Payload.obj f] := by
  simp only [State.JSON, State.Abort, Context.JSON, Context.Abort, ResponseWriter.WriteHeader]
  split <;> rfl

theorem JSON_Abort_inj (s : State) (code : Nat) (f g : List (String × String))
    (h : (s.JSON code f).Abort = (s.JSON code g).Abort) : f = g := by
  have hb := congrArg (fun t : State => t.c.Writer.body) h
  simp only [JSON_Abort_body] at hb
  have := List.append_cancel_left hb
  simpa using this

/-- The gate on a header of the form `Bearer <token>` is the verification of
the token. -/
theorem authMiddleware_bearer (env : Env) (s : State) (tok : String)
    (hh : s.c.GetHeader "Authorization" = "Bearer " ++ tok) (hsp : ' ' ∉ tok.data) :
    authMiddleware env s = verifyToken env s tok := by
  have hform := (split_bearer_iff ("Bearer " ++ tok)).mpr ⟨tok, rfl, hsp⟩
  have hne : "Bearer " ++ tok ≠ "" := by
    intro e
    have := congrArg String.data e
    rw [String.data_append] at this
    simp at this
  unfold authMiddleware
  simp only [hh, hne, if_false]
  rw [if_neg (by simpa using hform)]
  rw [split_bearer_token tok hsp]

theorem verifyToken_ne_malformed (env : Env) (s : State) (tok : String) :
    verifyToken env s tok ≠ Gate.rejected (s.JSON 401 [("error", "Invalid token format")]).Abort := by
  unfold verifyToken
  intro h
  split at h
  · have := JSON_Abort_inj s 401 _ _ (Gate.rejected.inj h)
    simp at this
  · split at h
    · cases h
    · split at h
      · have := JSON_Abort_inj s 401 _ _ (Gate.rejected.inj h)
        simp at this
      · cases h

theorem authMiddleware_missing (env : Env) (s : State) (h : s.c.GetHeader "Authorization" = "") :
    authMiddleware env s = Gate.rejected (s.JSON 401 [("error", "Missing token")]).Abort := by
  unfold authMiddleware
  simp [h]

theorem authMiddleware_malformed (env : Env) (s : State)
    (hne : s.c.GetHeader "Authorization" ≠ "")
    (hform : ¬ ((Split (s.c.GetHeader "Authorization") ' ').length = 2 ∧
      (Split (s.c.GetHeader "Authorization") ' ').headD "" = "Bearer")) :
    authMiddleware env s = Gate.rejected (s.JSON 401 [("error", "Invalid token format")]).Abort := by
  unfold authMiddleware
  simp only [hne, if_false]
  rw [if_pos (by
    by_contra hc
    apply hform
    constructor
    · by_contra h1; exact hc (Or.inl h1)
    · by_contra h2; exact hc (Or.inr h2))]

/-- C3: for a non-empty Authorization header `h`, the gate answers with the
malformed-header response (401, "Invalid token format") exactly when the split of
`h` on spaces is not two parts with first part `Bearer`; the split has that
shape exactly when `h` is `Bearer`, a space and a token without a space; and
every such header is handed to the verification with that token. -/
theorem authMiddleware_malformed_header_iff (env : Env) (s : State) (h : String)
    (hh : s.c.GetHeader "Authorization" = h) (hne : h ≠ "") :
    (authMiddleware env s = Gate.rejected (s.JSON 401 [("error", "Invalid token format")]).Abort ↔
        ¬ ((Split h ' ').length = 2 ∧ (Split h ' ').headD "" = "Bearer")) ∧
    (((Split h ' ').length = 2 ∧ (Split h ' ').headD "" = "Bearer") ↔
        ∃ tok : String, h = "Bearer " ++ tok ∧ ' ' ∉ tok.data) ∧
    (∀ tok : String, h = "Bearer " ++ tok → ' ' ∉ tok.data →
        authMiddleware env s = verifyToken env s tok) := by
  refine ⟨⟨?_, ?_⟩, split_bearer_iff h, ?_⟩
  · intro hrej hform
    obtain ⟨tok, htok, hsp⟩ := (split_bearer_iff h).mp hform
    rw [authMiddleware_bearer env s tok (hh.trans htok) hsp] at hrej
    exact verifyToken_ne_malformed env s tok hrej
  · intro hform
    subst hh
    exact authMiddleware_malformed env s hne hform
  · intro tok htok hsp
    exact authMiddleware_bearer env s tok (hh.trans htok) hsp

theorem authMiddleware_malformed_header_iff_witness :
    authMiddleware demoEnv (gateState "Basic abc") =
      Gate.rejected ((gateState "Basic abc").JSON 401 [("error", "Invalid token format")]).Abort :=
  (authMiddleware_malformed_header_iff demoEnv (gateState "Basic abc") "Basic abc" rfl
    (by decide)).1.mpr (by decide)

theorem authMiddleware_rejected_shape (env : Env) (s s1 : State)
    (h : authMiddleware env s = Gate.rejected s1) :
    ∃ msg, s1 = (s.JSON 401 [("error", msg)]).Abort := by
  unfold authMiddleware at h
  simp only at h
  split at h
  · exact ⟨_, (Gate.rejected.inj h).symm⟩
  · split at h
    · exact ⟨_, (Gate.rejected.inj h).symm⟩
    · unfold verifyToken at h
      split at h
      · exact ⟨_, (Gate.rejected.inj h).symm⟩
      · split at h
        · cases h
        · split at h
          · exact ⟨_, (Gate.rejected.inj h).symm⟩
          · cases h

theorem verifyToken_parse_error (env : Env) (s : State) (tok : String)
    (e : List ValidationErrorKind)
    (h : ParseWithClaims env.jwt tok env.jwtKey env.parseNow = Except.error e) :
    verifyToken env s tok = Gate.rejected (s.JSON 401 [("error", "Invalid token")]).Abort := by
  unfold verifyToken
  rw [h]

/-- C1: when the chain reaches the gate and the gate rejects, the loop of the
chain ends there: the response is 401 with a JSON body holding an "error"
field, the context is aborted, no further handler is entered, and the table
and the metric vectors are as before.  A request without Authorization header
is rejected so ("Missing token"), and so is one whose token fails
`ParseWithClaims` ("Invalid token"). -/
theorem authMiddleware_rejection_short_circuits (env : Env) (s : State) (fuel : Nat)
    (hgate : s.c.current = some Handler.authMiddleware)
    (hlen : s.c.handlers.length ≤ abortIndex)
    (hfresh : s.c.Writer.written = false) :
    (∀ s1, authMiddleware env (s.enter Handler.authMiddleware) = Gate.rejected s1 →
      run env (fuel + 2) s = Result.ok s1.incr ∧
      s1.c.Writer.status = 401 ∧
      (∃ msg, s1.c.Writer.body = s.c.Writer.body ++ [Payload.obj [("error", msg)]]) ∧
      s1.c.IsAborted = true ∧
      s1.invoked = s.invoked ++ [Handler.authMiddleware] ∧
      s1.db = s.db ∧ s1.httpRequests = s.httpRequests ∧ s1.httpDuration = s.httpDuration) ∧
    (∀ t : State, t.c.GetHeader "Authorization" = "" →
      authMiddleware env t = Gate.rejected (t.JSON 401 [("error", "Missing token")]).Abort) ∧
    (∀ (t : State) (tok : String) (e : List ValidationErrorKind),
      t.c.GetHeader "Authorization" = "Bearer " ++ tok → ' ' ∉ tok.data →
      ParseWithClaims env.jwt tok env.jwtKey env.parseNow = Except.error e →
      authMiddleware env t = Gate.rejected (t.JSON 401 [("error", "Invalid token")]).Abort) := by
  refine ⟨?_, ?_, ?_⟩
  · intro s1 hrej
    obtain ⟨msg, hs1⟩ := authMiddleware_rejected_shape env _ s1 hrej
    have hnone : s1.incr.c.current = none := by
      subst hs1
      simp only [State.JSON, State.Abort, Context.JSON, Context.Abort, Context.incr,
        Context.current, State.enter, State.incr]
      apply List.get?_eq_none.mpr
      unfold abortIndex at hlen ⊢
      omega
    refine ⟨?_, ?_, ?_, ?_, ?_, ?_, ?_, ?_⟩
    · rw [run, hgate]
      simp only [call, hrej]
      rw [run, hnone]
    · subst hs1
      simp [State.JSON, State.Abort, Context.JSON, Context.Abort, ResponseWriter.WriteHeader,
        State.enter, hfresh]
    · exact ⟨msg, by subst hs1; rw [JSON_Abort_body]; rfl⟩
    · subst hs1
      simp [State.Abort, Context.Abort, Context.IsAborted]
    · subst hs1; rfl
    · subst hs1; rfl
    · subst hs1; rfl
    · subst hs1; rfl
  · intro t ht
    exact authMiddleware_missing env t ht
  · intro t tok e hh hsp hparse
    rw [authMiddleware_bearer env t tok hh hsp, verifyToken_parse_error env t tok e hparse]

theorem authMiddleware_rejection_short_circuits_witness :
    ∃ s1, run demoEnv 2 (gateState "") = Result.ok s1 ∧ s1.c.Writer.status = 401 ∧
      s1.c.Writer.body = [Payload.obj [("error", "Missing token")]] ∧
      s1.invoked = [Handler.Logger, Handler.Recovery, Handler.securityHeaders, Handler.authMiddleware] ∧
      s1.db = (gateState "").db :=
  have h := (authMiddleware_rejection_short_circuits demoEnv (gateState "") 0 rfl (by decide) rfl).1
    _ rfl
  ⟨_, h.1, h.2.1, rfl, h.2.2.2.2.1, h.2.2.2.2.2.1⟩

/-! ## Expired and expiry-less tokens -/

theorem Claims_Valid_expired (c : Claims) (now e : Time) (hexp : c.ExpiresAt = some e)
    (hpast : e ≤ now) : c.Valid now ≠ [] := by
  have hb : Before now e = false := by
    unfold Before
    simp only [decide_eq_false_iff_not, not_lt]
    exact hpast
  simp [Claims.Valid, verifyExp, hexp, hb]

theorem ParseWithClaims_ok_iff (jwt : JWT) (tok : String) (key : List UInt8) (now : Time)
    (t : Token) :
    ParseWithClaims jwt tok key now = Except.ok t ↔
      ∃ token0, jwt.ParseUnverified tok = some token0 ∧ token0.Claims.Valid now = [] ∧
        jwt.Verify token0 key = true ∧ t = { token0 with Valid := true } := by
  unfold ParseWithClaims
  cases hp : jwt.ParseUnverified tok with
  | none => simp
  | some token0 =>
    by_cases hs : jwt.Verify token0 key = true
    · by_cases hv : token0.Claims.Valid now = []
      · simp only [hs, hv, if_true, Option.some.injEq, exists_eq_left', true_and]
        constructor
        · intro h
          injection h with h1
          exact h1.symm
        · intro h
          rw [h]
      · simp [hs, hv]
    · simp [hs]

theorem ParseWithClaims_expired (jwt : JWT) (tok : String) (key : List UInt8) (now e : Time)
    (token : Token) (hparse : jwt.ParseUnverified tok = some token)
    (hexp : token.Claims.ExpiresAt = some e) (hpast : e ≤ now) :
    ∃ err, ParseWithClaims jwt tok key now = Except.error err := by
  cases hr : ParseWithClaims jwt tok key now with
  | error err => exact ⟨err, rfl⟩
  | ok t =>
    obtain ⟨token0, hp0, hv0, _, _⟩ := (ParseWithClaims_ok_iff jwt tok key now t).mp hr
    rw [hparse] at hp0
    injection hp0 with hp1
    subst hp1
    exact absurd hv0 (Claims_Valid_expired token.Claims now e hexp hpast)

/-- C2 (what the code does): a token that decodes, is signed with the server
key, and whose expiration lies before the clock reading of the library, hence
before the later reading of the gate, is refused by `ParseWithClaims` itself:
the gate answers "Invalid token" and not "Token expired". -/
theorem authMiddleware_expired_token_reports_invalid (env : Env) (s : State) (tok : String)
    (token : Token) (e : Time)
    (hh : s.c.GetHeader "Authorization" = "Bearer " ++ tok) (hsp : ' ' ∉ tok.data)
    (hparse : env.jwt.ParseUnverified tok = some token)
    (_hsig : env.jwt.Verify token env.jwtKey = true)
    (hexp : token.Claims.ExpiresAt = some e)
    (hpast : e < env.parseNow) (hclock : env.parseNow ≤ env.now) :
    Before e env.now = true ∧
    authMiddleware env s = Gate.rejected (s.JSON 401 [("error", "Invalid token")]).Abort ∧
    authMiddleware env s ≠ Gate.rejected (s.JSON 401 [("error", "Token expired")]).Abort := by
  obtain ⟨err, herr⟩ :=
    ParseWithClaims_expired env.jwt tok env.jwtKey env.parseNow e token hparse hexp (le_of_lt hpast)
  have hgate : authMiddleware env s = Gate.rejected (s.JSON 401 [("error", "Invalid token")]).Abort := by
    rw [authMiddleware_bearer env s tok hh hsp, verifyToken_parse_error env s tok err herr]
  refine ⟨?_, hgate, ?_⟩
  · unfold Before
    simp only [decide_eq_true_eq]
    exact lt_of_lt_of_le hpast hclock
  · rw [hgate]
    intro h
    have := JSON_Abort_inj s 401 _ _ (Gate.rejected.inj h)
    simp at this

theorem authMiddleware_expired_token_reports_invalid_witness :
    authMiddleware demoEnv (gateState "Bearer hdr.stale.good") =
        Gate.rejected ((gateState "Bearer hdr.stale.good").JSON 401 [("error", "Invalid token")]).Abort ∧
    authMiddleware demoEnv (gateState "Bearer hdr.stale.good") ≠
        Gate.rejected ((gateState "Bearer hdr.stale.good").JSON 401 [("error", "Token expired")]).Abort :=
  (authMiddleware_expired_token_reports_invalid demoEnv (gateState "Bearer hdr.stale.good")
    "hdr.stale.good"
    { Method := "HS256", Claims := { Username := "admin", ExpiresAt := some (500 * Second) },
      signingInput := "hdr.stale", Signature := "good" }
    (500 * Second) rfl (by decide) rfl rfl rfl (by decide) (by decide)).2

/-- The gate answers "Token expired" only for a token that was still valid at
the clock reading of the library and is expired at the later reading of the
gate. -/
theorem authMiddleware_token_expired_only_between_readings (env : Env) (s : State) (tok : String)
    (hh : s.c.GetHeader "Authorization" = "Bearer " ++ tok) (hsp : ' ' ∉ tok.data)
    (h : authMiddleware env s = Gate.rejected (s.JSON 401 [("error", "Token expired")]).Abort) :
    ∃ token e, env.jwt.ParseUnverified tok = some token ∧ token.Claims.ExpiresAt = some e ∧
      env.parseNow < e ∧ e < env.now := by
  rw [authMiddleware_bearer env s tok hh hsp] at h
  unfold verifyToken at h
  split at h
  · have := JSON_Abort_inj s 401 _ _ (Gate.rejected.inj h)
    simp at this
  · rename_i token hok
    obtain ⟨token0, hp0, hv0, _, htok⟩ :=
      (ParseWithClaims_ok_iff env.jwt tok env.jwtKey env.parseNow token).mp hok
    split at h
    · cases h
    · rename_i e he
      have he0 : token0.Claims.ExpiresAt = some e := by
        rw [htok] at he
        exact he
      split at h
      · rename_i hbefore
        refine ⟨token0, e, hp0, he0, ?_, ?_⟩
        · by_contra hle
          exact Claims_Valid_expired token0.Claims env.parseNow e he0 (not_lt.mp hle) hv0
        · unfold Before at hbefore
          simpa using hbefore
      · cases h

/-- C10 (what the code does): a token that decodes, verifies under the server
key and carries no `exp` (nor `iat`, `nbf`) claim is accepted by
`ParseWithClaims`; the gate then reads `claims.ExpiresAt.Time` through the nil
pointer and panics, neither rejecting nor continuing. -/
theorem authMiddleware_panics_without_exp (env : Env) (s : State) (tok : String) (token : Token)
    (hh : s.c.GetHeader "Authorization" = "Bearer " ++ tok) (hsp : ' ' ∉ tok.data)
    (hparse : env.jwt.ParseUnverified tok = some token)
    (hsig : env.jwt.Verify token env.jwtKey = true)
    (hexp : token.Claims.ExpiresAt = none)
    (hiat : token.Claims.IssuedAt = none) (hnbf : token.Claims.NotBefore = none) :
    ParseWithClaims env.jwt tok env.jwtKey env.parseNow = Except.ok { token with Valid := true } ∧
    authMiddleware env s = Gate.panicked s ∧
    (∀ s1, authMiddleware env s ≠ Gate.rejected s1) ∧ (∀ s1, authMiddleware env s ≠ Gate.passed s1) := by
  have hp : ParseWithClaims env.jwt tok env.jwtKey env.parseNow =
      Except.ok { token with Valid := true } := by
    unfold ParseWithClaims
    rw [hparse]
    simp [Claims.Valid, verifyExp, verifyIat, verifyNbf, hexp, hiat, hnbf, hsig]
  have hg : authMiddleware env s = Gate.panicked s := by
    rw [authMiddleware_bearer env s tok hh hsp]
    unfold verifyToken
    rw [hp]
    simp only [hexp]
  refine ⟨hp, hg, ?_, ?_⟩
  · intro s1 h
    rw [hg] at h
    cases h
  · intro s1 h
    rw [hg] at h
    cases h

theorem authMiddleware_panics_without_exp_witness :
    authMiddleware demoEnv (gateState "Bearer hdr.noexp.good") =
      Gate.panicked (gateState "Bearer hdr.noexp.good") :=
  (authMiddleware_panics_without_exp demoEnv (gateState "Bearer hdr.noexp.good") "hdr.noexp.good"
    { Method := "HS256", Claims := { Username := "admin", ExpiresAt := none },
      signingInput := "hdr.noexp", Signature := "good" }
    rfl (by decide) rfl rfl rfl rfl rfl).2.1

/-! ## `login` -/

theorem sub_emod_second (t : Int) :
    t - t % 1000000000 ≤ t ∧ t < t - t % 1000000000 + 1000000000 ∧
      (t - t % 1000000000) % 1000000000 = 0 ∧ (t % 1000000000 = 0 → t - t % 1000000000 = t) := by
  omega

theorem add_day_emod_second (t : Int) (h0 : t % 1000000000 = 0) :
    (t + 24 * (3600 * 1000000000)) % 1000000000 = 0 := by
  omega

theorem Truncate_second_bounds (t : Time) :
    Truncate t Second ≤ t ∧ t < Truncate t Second + Second ∧ Truncate t Second % Second = 0 ∧
      (t % Second = 0 → Truncate t Second = t) := sub_emod_second t

/-- C4 as stated fails: at clock reading 1.5 s `login` answers 200 with the
token that signs `loginClaims`, whose expiration is 86401 s, not 1.5 s plus 24
hours. -/
theorem login_expiry_not_exact :
    (login demoEnvHalfSecond (loginState "admin" "password")).c.Writer.status = 200 ∧
    (login demoEnvHalfSecond (loginState "admin" "password")).c.Writer.body =
      [Payload.obj [("token", demoJWT.SigningString
          (loginClaims demoEnvHalfSecond { Username := "admin", Password := "password" }) ++ "." ++ "good")]] ∧
    (loginClaims demoEnvHalfSecond { Username := "admin", Password := "password" }).ExpiresAt =
      some (86401 * Second) ∧
    (loginClaims demoEnvHalfSecond { Username := "admin", Password := "password" }).ExpiresAt ≠
      some (demoEnvHalfSecond.now + 24 * Hour) := by
  refine ⟨rfl, rfl, by decide, by decide⟩

theorem bindCredentials_canonical (u p : String) :
    bindCredentials (Body.object [("username", JSONValue.string u), ("password", JSONValue.string p)]) =
      some { Username := u, Password := p } := by
  have h1 : EqualFold "username" "username" = true := by decide
  have h2 : EqualFold "password" "username" = false := by decide
  have h3 : EqualFold "username" "password" = false := by decide
  have h4 : EqualFold "password" "password" = true := by decide
  simp [bindCredentials, decodeString, h1, h2, h3, h4]

/-- C4 (amended): for a body that decodes to the valid principal, `login` at
instant `env.now` answers 200 with the signed token of claims whose username is
the submitted one and whose expiration is `env.now` plus 24 hours truncated to
a whole second: at most `env.now` plus 24 hours, less than a second before it,
and equal to it when `env.now` is a whole number of seconds. -/
theorem login_valid_credentials (env : Env) (s : State) (creds : Credentials)
    (hbind : bindCredentials s.c.Request.Body = some creds)
    (hu : creds.Username = "admin") (hp : creds.Password = "password")
    (hfresh : s.c.Writer.written = false) :
    ∃ (claims : Claims) (exp : Time),
      claims = loginClaims env creds ∧
      login env s = s.JSON 200 [("token", env.jwt.SigningString claims ++ "." ++
        env.jwt.Sign (env.jwt.SigningString claims) env.jwtKey)] ∧
      (login env s).c.Writer.status = 200 ∧
      claims.Username = creds.Username ∧
      claims.ExpiresAt = some exp ∧
      exp = Truncate (env.now + 24 * Hour) Second ∧
      exp ≤ env.now + 24 * Hour ∧ env.now + 24 * Hour < exp + Second ∧ exp % Second = 0 ∧
      (env.now % Second = 0 → exp = env.now + 24 * Hour) := by
  have hb := Truncate_second_bounds (env.now + 24 * Hour)
  have hlogin : login env s = s.JSON 200 [("token", env.jwt.SigningString
      (loginClaims env creds) ++ "." ++
        env.jwt.Sign (env.jwt.SigningString (loginClaims env creds)) env.jwtKey)] := by
    unfold login
    simp [hbind, hu, hp, SignedString]
  refine ⟨_, Truncate (env.now + 24 * Hour) Second, rfl, hlogin, ?_, rfl, rfl, rfl,
    hb.1, hb.2.1, hb.2.2.1, ?_⟩
  · rw [hlogin]
    simp [State.JSON, Context.JSON, ResponseWriter.WriteHeader, hfresh]
  · intro h0
    exact hb.2.2.2 (add_day_emod_second env.now h0)

theorem login_valid_credentials_witness :
    ∃ (claims : Claims) (exp : Time),
      claims = loginClaims demoEnv { Username := "admin", Password := "password" } ∧
      login demoEnv (loginState "admin" "password") =
        (loginState "admin" "password").JSON 200 [("token", demoEnv.jwt.SigningString claims ++ "." ++
          demoEnv.jwt.Sign (demoEnv.jwt.SigningString claims) demoEnv.jwtKey)] ∧
      (login demoEnv (loginState "admin" "password")).c.Writer.status = 200 ∧
      claims.Username = "admin" ∧
      claims.ExpiresAt = some exp ∧
      exp = Truncate (demoEnv.now + 24 * Hour) Second ∧
      exp ≤ demoEnv.now + 24 * Hour ∧ demoEnv.now + 24 * Hour < exp + Second ∧ exp % Second = 0 ∧
      (demoEnv.now % Second = 0 → exp = demoEnv.now + 24 * Hour) :=
  login_valid_credentials demoEnv (loginState "admin" "password")
    { Username := "admin", Password := "password" } (bindCredentials_canonical "admin" "password")
    rfl rfl rfl

/-- C5: for a body that decodes to a username and password that are not
exactly "admin" and "password", `login` answers 401 with error
"Invalid credentials"; the body written holds no token, and nothing else
changes. -/
theorem login_invalid_credentials (env : Env) (s : State) (creds : Credentials)
    (hbind : bindCredentials s.c.Request.Body = some creds)
    (hbad : ¬ (creds.Username = "admin" ∧ creds.Password = "password"))
    (hfresh : s.c.Writer.written = false) (hempty : s.c.Writer.body = []) :
    login env s = s.JSON 401 [("error", "Invalid credentials")] ∧
    (login env s).c.Writer.status = 401 ∧
    (login env s).c.Writer.body = [Payload.obj [("error", "Invalid credentials")]] ∧
    (∀ p ∈ (login env s).c.Writer.body, ∀ fs, p = Payload.obj fs → fs.lookup "token" = none) ∧
    (login env s).db = s.db ∧ (login env s).httpRequests = s.httpRequests := by
  have hlogin : login env s = s.JSON 401 [("error", "Invalid credentials")] := by
    unfold login
    have hor : creds.Username ≠ "admin" ∨ creds.Password ≠ "password" := by
      by_contra hc
      apply hbad
      constructor
      · by_contra h1; exact hc (Or.inl h1)
      · by_contra h2; exact hc (Or.inr h2)
    simp only [hbind]
    rw [if_pos hor]
  have hbodyw : (login env s).c.Writer.body = [Payload.obj [("error", "Invalid credentials")]] := by
    rw [hlogin]
    simp [State.JSON, Context.JSON, ResponseWriter.WriteHeader, hfresh, hempty]
  refine ⟨hlogin, ?_, hbodyw, ?_, ?_, ?_⟩
  · rw [hlogin]
    simp [State.JSON, Context.JSON, ResponseWriter.WriteHeader, hfresh]
  · intro p hp fs hfs
    rw [hbodyw] at hp
    simp only [List.mem_singleton] at hp
    rw [hp] at hfs
    injection hfs with hfs1
    rw [← hfs1]
    rfl
  · rw [hlogin]; rfl
  · rw [hlogin]; rfl

theorem login_invalid_credentials_witness :
    login demoEnv (loginState "admin" "wrong") =
        (loginState "admin" "wrong").JSON 401 [("error", "Invalid credentials")] ∧
    (login demoEnv (loginState "admin" "wrong")).c.Writer.status = 401 :=
  have h := login_invalid_credentials demoEnv (loginState "admin" "wrong")
    { Username := "admin", Password := "wrong" } (bindCredentials_canonical "admin" "wrong")
    (by decide) rfl rfl
  ⟨h.1, h.2.1⟩

/-- The decoder matches keys under case folding: a body with the keys
`Username` and `PASSWORD` decodes to the valid principal and `login` answers
200 with a token. -/
theorem login_mixed_case_keys :
    bindCredentials (Body.object [("Username", JSONValue.string "admin"),
        ("PASSWORD", JSONValue.string "password")]) =
      some { Username := "admin", Password := "password" } ∧
    (login demoEnv (bodyState (Body.object [("Username", JSONValue.string "admin"),
        ("PASSWORD", JSONValue.string "password")]))).c.Writer.status = 200 ∧
    (login demoEnv (bodyState (Body.object [("Username", JSONValue.string "admin"),
        ("PASSWORD", JSONValue.string "password")]))).c.Writer.body =
      [Payload.obj [("token", "hdr.admin.good")]] := by
  refine ⟨by decide, by decide, by decide⟩

/-- The decoder keeps the last of duplicate keys: a body whose first
`username` is "admin" and whose second is "bob" decodes to "bob" and `login`
answers 401; a non-string value for a field is a decoding error, answered 400. -/
theorem login_duplicate_and_mistyped_keys :
    bindCredentials (Body.object [("username", JSONValue.string "admin"),
        ("password", JSONValue.string "password"), ("username", JSONValue.string "bob")]) =
      some { Username := "bob", Password := "password" } ∧
    (login demoEnv (bodyState (Body.object [("username", JSONValue.string "admin"),
        ("password", JSONValue.string "password"),
        ("username", JSONValue.string "bob")]))).c.Writer.status = 401 ∧
    bindCredentials (Body.object [("username", JSONValue.other),
        ("password", JSONValue.string "password")]) = none ∧
    (login demoEnv (bodyState (Body.object [("username", JSONValue.other),
        ("password", JSONValue.string "password")]))).c.Writer.status = 400 := by
  refine ⟨by decide, by decide, by decide, by decide⟩

/-! ## The shutdown step -/

/-- C8 as stated fails: when the drain window elapses with requests
outstanding, the process ends through `log.Fatal` and never logs
"Server exiting". -/
theorem shutdown_timeout_is_fatal :
    ¬ ((shutdownStep (Shutdown true)).exit = Exit.returned ∧
        "Server exiting" ∈ (shutdownStep (Shutdown true)).log) ∧
    (shutdownStep (Shutdown true)).exit = Exit.fatal ∧
    "Server exiting" ∉ (shutdownStep (Shutdown true)).log := by
  decide

/-- C8 (amended): the shutdown step reaches the normal exit path ("Server
exiting", `main` returns) exactly when `srv.Shutdown` returns nil; on any error
it logs "Server forced to shutdown:" with the error through `log.Fatal` and the
process ends on the fatal path, without "Server exiting".  The drain window
elapsing with requests outstanding is such an error. -/
theorem shutdownStep_exit (shutdownErr : Option String) (outstanding : Bool) :
    ((shutdownStep shutdownErr).exit = Exit.returned ↔ shutdownErr = none) ∧
    ((shutdownStep shutdownErr).exit = Exit.fatal ↔ shutdownErr ≠ none) ∧
    (shutdownStep none = { log := ["Shutting down server...", "Server exiting"],
                           exit := Exit.returned }) ∧
    (∀ err, shutdownStep (some err) =
      { log := ["Shutting down server...", "Server forced to shutdown:" ++ err],
        exit := Exit.fatal }) ∧
    ((Shutdown outstanding = none ↔ outstanding = false) ∧
      shutdownStep (Shutdown true) =
        { log := ["Shutting down server...", "Server forced to shutdown:context deadline exceeded"],
          exit := Exit.fatal }) := by
  refine ⟨?_, ?_, rfl, fun _ => rfl, ?_, rfl⟩
  · cases shutdownErr <;> simp [shutdownStep]
  · cases shutdownErr <;> simp [shutdownStep]
  · cases outstanding <;> simp [Shutdown]

/-! ## The round trip over the table -/

theorem String_ne_empty_of_length_pos (t : String) (h : 0 < t.length) : t ≠ "" := by
  intro e
  rw [e] at h
  exact absurd h (by decide)

theorem FormatRFC3339_ne_empty (env : Env) (t : Time) : FormatRFC3339 env t ≠ "" := by
  apply String_ne_empty_of_length_pos
  unfold FormatRFC3339
  simp only [String.length_append]
  have : ("-" : String).length = 1 := rfl
  omega

theorem scanRows_healthy (env : Env) (hscan : env.scanErrAt = none) (i : Nat) (rows : List Row)
    (acc : List LogResponse) :
    scanRows env i rows acc = some (acc ++ rows.map (toLogResponse env)) := by
  induction rows generalizing i acc with
  | nil => simp [scanRows]
  | cons r rs ih =>
    simp [scanRows, hscan, ih]

theorem getLogsHandler_healthy (env : Env) (s : State)
    (hq : env.queryErr = false) (hscan : env.scanErrAt = none) (hrows : env.rowsErrAt = none) :
    getLogsHandler env s = { s with c := s.c.JSON 200 (Payload.logs (s.db.rows.map (toLogResponse env))) } := by
  unfold getLogsHandler
  simp [hq, Store.cursor, hrows, scanRows_healthy env hscan]

theorem addLog_created (env : Env) (s : State) (m : String)
    (hbind : bindLogEntry s.c.Request.Body = some { Message := m })
    (hfresh : s.c.Writer.written = false)
    (hcreated : (addLog env s).c.Writer.status = 201) :
    (addLog env s).db = { s.db with
      rows := s.db.rows ++ [{ id := some s.db.nextId, level := s.db.levelDefault,
                              message := some m,
                              service := s.db.serviceDefault, created_at := some env.dbNow }]
      nextId := s.db.nextId + 1 } := by
  by_cases hmsg : m = ""
  · simp [addLog, hbind, hmsg, State.JSON, Context.JSON, ResponseWriter.WriteHeader,
      hfresh] at hcreated
  · by_cases hx : env.execErr = true
    · simp [addLog, hbind, hmsg, Store.insert, hx, State.JSON, Context.JSON,
        ResponseWriter.WriteHeader, hfresh] at hcreated
    · simp [addLog, hbind, hmsg, Store.insert, hx, State.JSON]

theorem scanRows_error (env : Env) (i : Nat) (hscan : env.scanErrAt = some i) (j : Nat)
    (rows : List Row) (acc : List LogResponse) (hj : j ≤ i) (hi : i < j + rows.length) :
    scanRows env j rows acc = none := by
  induction rows generalizing j acc with
  | nil =>
    simp only [List.length_nil] at hi
    omega
  | cons r rs ih =>
    by_cases hji : j = i
    · subst hji
      simp [scanRows, hscan]
    · have hne : ¬ (i = j) := fun e => hji e.symm
      simp only [scanRows, hscan, Option.some.injEq, hne, if_false]
      apply ih
      · omega
      · simp only [List.length_cons] at hi
        omega

/-- C9 as stated fails: after `addLog` answered 201, a GET whose `db.Query`
returns an error is answered 500 with "Error retrieving logs", not 200 with the
list. -/
theorem getLogs_query_error_after_add :
    (addLog demoEnv (gateState "")).c.Writer.status = 201 ∧
    afterAddState.db = (addLog demoEnv (gateState "")).db ∧
    (getLogsHandler demoEnvQueryErr afterAddState).c.Writer.status = 500 ∧
    (getLogsHandler demoEnvQueryErr afterAddState).c.Writer.body =
      [Payload.obj [("error", "Error retrieving logs")]] ∧
    (getLogsHandler demoEnvQueryErr afterAddState).c.Writer.status ≠ 200 := by
  refine ⟨rfl, rfl, rfl, rfl, by decide⟩

/-- C9 (amended): after `addLog` answered 201 for a body that decodes to the
non-empty message `m`, `getLogsHandler` on the resulting table, when
`db.Query`, every `rows.Scan` and the row iteration succeed, answers 200 with
the list of the rows in order; the list has an entry with message `m` and a
non-empty `created_at`, and every row of the table appears in it with its
message and id.  When `db.Query` fails it answers 500 "Error retrieving logs",
and when a `rows.Scan` fails on a delivered row it answers 500
"Error scanning logs". -/
theorem addLog_getLogs_roundtrip (env env2 : Env) (s s2 : State) (m : String)
    (hbind : bindLogEntry s.c.Request.Body = some { Message := m })
    (_hne : m ≠ "") (hfresh : s.c.Writer.written = false)
    (hcreated : (addLog env s).c.Writer.status = 201)
    (hdb : s2.db = (addLog env s).db)
    (hfresh2 : s2.c.Writer.written = false) (hempty2 : s2.c.Writer.body = []) :
    (env2.queryErr = false → env2.scanErrAt = none → env2.rowsErrAt = none →
      (getLogsHandler env2 s2).c.Writer.status = 200 ∧
      (getLogsHandler env2 s2).c.Writer.body = [Payload.logs (s2.db.rows.map (toLogResponse env2))] ∧
      (∃ e ∈ s2.db.rows.map (toLogResponse env2), e.Message = m ∧ e.CreatedAt ≠ "") ∧
      (∀ r ∈ s2.db.rows, ∃ e ∈ s2.db.rows.map (toLogResponse env2),
        e.Message = r.message.getD "" ∧ e.ID = r.id.getD 0) ∧
      (s2.db.rows.map (toLogResponse env2)).map LogResponse.Message =
        s2.db.rows.map (fun r => r.message.getD "")) ∧
    (env2.queryErr = true →
      (getLogsHandler env2 s2).c.Writer.status = 500 ∧
      (getLogsHandler env2 s2).c.Writer.body = [Payload.obj [("error", "Error retrieving logs")]]) ∧
    (env2.queryErr = false → ∀ i, env2.scanErrAt = some i → i < (s2.db.cursor env2).length →
      (getLogsHandler env2 s2).c.Writer.status = 500 ∧
      (getLogsHandler env2 s2).c.Writer.body = [Payload.obj [("error", "Error scanning logs")]]) := by
  refine ⟨?_, ?_, ?_⟩
  · intro hq hscan hrows
    have hget := getLogsHandler_healthy env2 s2 hq hscan hrows
    have hadd := addLog_created env s m hbind hfresh hcreated
    refine ⟨?_, ?_, ?_, ?_, ?_⟩
    · rw [hget]
      simp [Context.JSON, ResponseWriter.WriteHeader, hfresh2]
    · rw [hget]
      simp [Context.JSON, ResponseWriter.WriteHeader, hfresh2, hempty2]
    · refine ⟨toLogResponse env2 (Row.mk (some s.db.nextId) s.db.levelDefault (some m)
          s.db.serviceDefault (some env.dbNow)), ?_, rfl, FormatRFC3339_ne_empty env2 _⟩
      rw [hdb, hadd]
      simp
    · intro r hr
      exact ⟨toLogResponse env2 r, List.mem_map_of_mem _ hr, rfl, rfl⟩
    · simp [toLogResponse]
  · intro hq
    have hget : getLogsHandler env2 s2 = s2.JSON 500 [("error", "Error retrieving logs")] := by
      unfold getLogsHandler
      simp [hq]
    rw [hget]
    simp [State.JSON, Context.JSON, ResponseWriter.WriteHeader, hfresh2, hempty2]
  · intro hq i hscan hi
    have hget : getLogsHandler env2 s2 = s2.JSON 500 [("error", "Error scanning logs")] := by
      unfold getLogsHandler
      have hnone := scanRows_error env2 i hscan 0 (s2.db.cursor env2) [] (Nat.zero_le i)
        (by omega)
      simp [hq, hnone]
    rw [hget]
    simp [State.JSON, Context.JSON, ResponseWriter.WriteHeader, hfresh2, hempty2]

theorem addLog_getLogs_roundtrip_witness :
    (getLogsHandler demoEnv afterAddState).c.Writer.status = 200 ∧
    ∃ e ∈ afterAddState.db.rows.map (toLogResponse demoEnv), e.Message = "hello" ∧ e.CreatedAt ≠ "" :=
  have h := (addLog_getLogs_roundtrip demoEnv demoEnv (gateState "") afterAddState
    "hello" (by decide) (by decide) rfl rfl rfl rfl rfl).1 rfl rfl rfl
  ⟨h.1, h.2.2.1⟩

/-! ## Running a chain -/

theorem run_finished (env : Env) (fuel : Nat) (s : State) (h : s.finished) :
    run env (fuel + 1) s = Result.ok s := by
  obtain ⟨i, hi, hl⟩ := h
  have hc : s.c.current = none := by
    simp only [Context.current, hi]
    exact List.get?_eq_none.mpr hl
  rw [run, hc]

theorem finished_incr (s : State) (h : s.finished) : s.incr.finished := by
  obtain ⟨i, hi, hl⟩ := h
  exact ⟨i + 1, by simp [State.incr, Context.incr, hi], by
    simp only [State.incr, Context.incr]
    omega⟩

theorem run_wrap_ok (env : Env) (fuel : Nat) (s spre s2 : State) (m : Handler)
    (hc : s.c.current = some m)
    (hcall : ∀ next, call env next m s = next spre)
    (hin : run env (fuel + 1) spre.incr = Result.ok s2) (hfin : s2.finished) :
    run env (fuel + 2) s = Result.ok s2.incr := by
  rw [run, hc]
  simp only [hcall, hin]
  exact run_finished env fuel s2.incr (finished_incr s2 hfin)

theorem run_wrap_panic (env : Env) (fuel : Nat) (s spre s1 : State) (m : Handler)
    (hc : s.c.current = some m)
    (hcall : ∀ next, call env next m s = next spre)
    (hin : run env (fuel + 1) spre.incr = Result.panic s1) :
    run env (fuel + 2) s = Result.panic s1 := by
  rw [run, hc]
  simp only [hcall, hin]

theorem run_recovery_ok (env : Env) (fuel : Nat) (s s2 : State)
    (hc : s.c.current = some Handler.Recovery)
    (hin : run env (fuel + 1) (s.enter Handler.Recovery).incr = Result.ok s2) (hfin : s2.finished) :
    run env (fuel + 2) s = Result.ok s2.incr := by
  rw [run, hc]
  simp only [call, hin]
  exact run_finished env fuel s2.incr (finished_incr s2 hfin)

theorem body_call (env : Env) (next : State → Result) (h : Handler) (T : Env → State → State)
    (hb : h.body = some T) (s : State) : call env next h s = Result.ok (T env (s.enter h)) := by
  cases h <;> simp [Handler.body] at hb <;> subst hb <;> rfl

theorem hasSecurityHeaders_writeContentType (w : ResponseWriter) (value : String)
    (h : w.hasSecurityHeaders) :
    ({ w with header := writeContentType w.header value } : ResponseWriter).hasSecurityHeaders := by
  unfold writeContentType
  split
  · exact h
  · obtain ⟨h1, h2, h3⟩ := h
    refine ⟨?_, ?_, ?_⟩
    · show List.lookup "X-Content-Type-Options" (("Content-Type", value) :: w.header) = _
      rw [List.lookup_cons]
      exact h1
    · show List.lookup "X-Frame-Options" (("Content-Type", value) :: w.header) = _
      rw [List.lookup_cons]
      exact h2
    · show List.lookup "X-XSS-Protection" (("Content-Type", value) :: w.header) = _
      rw [List.lookup_cons]
      exact h3

theorem hasSecurityHeaders_WriteHeader (w : ResponseWriter) (code : Nat)
    (h : w.hasSecurityHeaders) : (w.WriteHeader code).hasSecurityHeaders := by
  unfold ResponseWriter.WriteHeader
  split
  · exact h
  · exact h

theorem hasSecurityHeaders_JSON (c : Context) (code : Nat) (p : Payload)
    (h : c.Writer.hasSecurityHeaders) : (c.JSON code p).Writer.hasSecurityHeaders :=
  hasSecurityHeaders_writeContentType _ _ (hasSecurityHeaders_WriteHeader c.Writer code h)

theorem hasSecurityHeaders_AbortWithStatus (c : Context) (code : Nat)
    (h : c.Writer.hasSecurityHeaders) : (c.AbortWithStatus code).Writer.hasSecurityHeaders :=
  hasSecurityHeaders_WriteHeader c.Writer code h

theorem frame_refl (s : State) : s.frame s := ⟨rfl, rfl, rfl, rfl, rfl, rfl, Or.inl rfl, id⟩

theorem frame_payload (s t : State) (code : Nat) (p : Payload) (h : s.frame t) :
    s.frame { t with c := t.c.JSON code p } := by
  obtain ⟨h1, h2, h3, h4, h5, h6, h7, h8⟩ := h
  exact ⟨h1, h2, h3, h4, h5, h6, h7, fun hs => hasSecurityHeaders_JSON t.c code p (h8 hs)⟩

theorem frame_JSON (s t : State) (code : Nat) (f : List (String × String)) (h : s.frame t) :
    s.frame (t.JSON code f) := frame_payload s t code (Payload.obj f) h

theorem frame_bindFailed (s t : State) (h : s.frame t) : s.frame t.bindFailed := by
  obtain ⟨h1, h2, h3, h4, h5, h6, _, h8⟩ := h
  exact ⟨h1, h2, h3, h4, h5, h6, Or.inr rfl,
    fun hs => hasSecurityHeaders_AbortWithStatus t.c 400 (h8 hs)⟩

theorem frame_db (s t : State) (db : Store) (h : s.frame t) : s.frame { t with db := db } := h

theorem body_frame (env : Env) (h : Handler) (T : Env → State → State) (hb : h.body = some T)
    (s : State) : s.frame (T env s) := by
  cases h <;> simp [Handler.body] at hb <;> subst hb
  · unfold login
    repeat' split
    all_goals first
      | exact frame_JSON _ _ _ _ (frame_bindFailed _ _ (frame_refl s))
      | exact frame_JSON _ _ _ _ (frame_refl s)
  · unfold addLog
    repeat' split
    all_goals first
      | exact frame_JSON _ _ _ _ (frame_bindFailed _ _ (frame_refl s))
      | exact frame_JSON _ _ _ _ (frame_db _ _ _ (frame_refl s))
  · unfold getLogsHandler
    repeat' split
    all_goals exact frame_payload _ _ _ _ (frame_refl s)
  · unfold deleteLogHandler
    dsimp only
    repeat' split
    all_goals exact frame_JSON _ _ _ _ (frame_db _ _ _ (frame_refl s))
  · unfold updateLogHandler
    dsimp only
    repeat' split
    all_goals first
      | exact frame_JSON _ _ _ _ (frame_bindFailed _ _ (frame_refl s))
      | exact frame_JSON _ _ _ _ (frame_db _ _ _ (frame_refl s))
  · unfold patchLogHandler
    dsimp only
    repeat' split
    all_goals first
      | exact frame_JSON _ _ _ _ (frame_bindFailed _ _ (frame_refl s))
      | exact frame_JSON _ _ _ _ (frame_db _ _ _ (frame_refl s))

/-- The last handler of a chain, wrapped in `measureRequest`: the body runs,
the sample is recorded, and the loop ends. -/
theorem run_measured (env : Env) (fuel : Nat) (s : State) (h : Handler)
    (T : Env → State → State) (hb : h.body = some T) (i : Nat)
    (hc : s.c.current = some (Handler.measureRequest h))
    (hi : s.c.index = some i) (hlast : s.c.handlers.length ≤ i + 1)
    (hlen : s.c.handlers.length ≤ abortIndex) :
    run env (fuel + 2) s =
      Result.ok ((T env ((s.enter (Handler.measureRequest h)).enter h)).observe env).incr ∧
    ((T env ((s.enter (Handler.measureRequest h)).enter h)).observe env).incr.finished := by
  have hfr := body_frame env h T hb ((s.enter (Handler.measureRequest h)).enter h)
  obtain ⟨_, _, _, _, h5, _, h7, _⟩ := hfr
  have hfin : ((T env ((s.enter (Handler.measureRequest h)).enter h)).observe env).incr.finished := by
    rcases h7 with h7 | h7
    · refine ⟨i + 1, ?_, ?_⟩
      · simp only [State.incr, Context.incr, State.observe, h7]
        simp [State.enter, hi]
      · simp only [State.incr, Context.incr, State.observe, h5]
        exact hlast
    · refine ⟨abortIndex + 1, ?_, ?_⟩
      · simp only [State.incr, Context.incr, State.observe, h7]
      · simp only [State.incr, Context.incr, State.observe, h5]
        simp only [State.enter]
        omega
  refine ⟨?_, hfin⟩
  rw [run, hc]
  simp only [call]
  rw [body_call env _ h T hb]
  simp only
  exact run_finished env fuel _ hfin

/-- The gate lets a request through exactly when its header is `Bearer` and a
token that `ParseWithClaims` accepts, with an expiration not before the
reading of `time.Now()`; the state passed on has the username bound. -/
theorem authMiddleware_passed_iff (env : Env) (s s1 : State) :
    authMiddleware env s = Gate.passed s1 ↔
      ∃ tok token exp, s.c.GetHeader "Authorization" = "Bearer " ++ tok ∧ ' ' ∉ tok.data ∧
        ParseWithClaims env.jwt tok env.jwtKey env.parseNow = Except.ok token ∧
        token.Claims.ExpiresAt = some exp ∧ Before exp env.now = false ∧
        s1 = { s with c := s.c.Set "username" token.Claims.Username } := by
  constructor
  · intro h
    by_cases h0 : s.c.GetHeader "Authorization" = ""
    · rw [authMiddleware_missing env s h0] at h
      cases h
    · by_cases hform : ((Split (s.c.GetHeader "Authorization") ' ').length = 2 ∧
          (Split (s.c.GetHeader "Authorization") ' ').headD "" = "Bearer")
      · obtain ⟨tok, htok, hsp⟩ := (split_bearer_iff _).mp hform
        rw [authMiddleware_bearer env s tok htok hsp] at h
        unfold verifyToken at h
        split at h
        · cases h
        · rename_i token hok
          split at h
          · cases h
          · rename_i exp hexp
            split at h
            · cases h
            · rename_i hb
              exact ⟨tok, token, exp, htok, hsp, hok, hexp, by simpa using hb,
                (Gate.passed.inj h).symm⟩
      · rw [authMiddleware_malformed env s h0 hform] at h
        cases h
  · rintro ⟨tok, token, exp, htok, hsp, hok, hexp, hb, rfl⟩
    rw [authMiddleware_bearer env s tok htok hsp]
    unfold verifyToken
    rw [hok]
    simp only [hexp, hb]
    rfl

theorem authMiddleware_of_passesGate (env : Env) (req : Request) (hp : passesGate env req)
    (s : State) (hs : s.c.Request = req) :
    ∃ u, authMiddleware env s = Gate.passed { s with c := s.c.Set "username" u } := by
  obtain ⟨s1, h1⟩ := hp
  obtain ⟨tok, token, exp, htok, hsp, hok, hexp, hb, _⟩ := (authMiddleware_passed_iff env _ s1).mp h1
  refine ⟨token.Claims.Username, (authMiddleware_passed_iff env s _).mpr
    ⟨tok, token, exp, ?_, hsp, hok, hexp, hb, rfl⟩⟩
  rw [← htok]
  simp only [Context.GetHeader, hs]

/-! ## The counter `http_requests_total` -/

theorem value_Inc_self (v : CounterVec) (l : List String) :
    (v.Inc l).value l = v.value l + 1 := by
  induction v with
  | nil => simp [CounterVec.Inc, CounterVec.value]
  | cons e rest ih =>
    obtain ⟨l0, n⟩ := e
    by_cases h : l0 = l
    · simp [CounterVec.Inc, CounterVec.value, h]
    · simp [CounterVec.Inc, CounterVec.value, h, ih]

theorem value_Inc_other (v : CounterVec) (l k : List String) (hk : k ≠ l) :
    (v.Inc l).value k = v.value k := by
  induction v with
  | nil =>
    have : l ≠ k := fun e => hk e.symm
    simp [CounterVec.Inc, CounterVec.value, this]
  | cons e rest ih =>
    obtain ⟨l0, n⟩ := e
    by_cases h : l0 = l
    · have h2 : l ≠ k := fun e => hk e.symm
      subst h
      simp [CounterVec.Inc, CounterVec.value, h2]
    · by_cases h3 : l0 = k
      · subst h3
        simp [CounterVec.Inc, CounterVec.value, h]
      · simp [CounterVec.Inc, CounterVec.value, h, h3, ih]

theorem total_Inc (v : CounterVec) (method endpoint status : String) :
    (v.Inc [method, endpoint, status]).total method endpoint = v.total method endpoint + 1 := by
  induction v with
  | nil => simp [CounterVec.Inc, CounterVec.total]
  | cons e rest ih =>
    obtain ⟨l0, n⟩ := e
    by_cases h : l0 = [method, endpoint, status]
    · subst h
      simp [CounterVec.Inc, CounterVec.total]
      omega
    · simp only [CounterVec.Inc, h, if_false, CounterVec.total, ih]
      omega

/-! ## Serving the measured routes of `main` -/

/-- The chain of route POST /login, run from a fresh context. -/
theorem Next_public_chain (env : Env) (s : State) (req : Request)
    (params : List (String × String)) (path : String) (h : Handler) (T : Env → State → State)
    (hb : h.body = some T) :
    ∃ s1, Next env 5 { s with
        c := { Request := req, Params := params,
               handlers := [Handler.Logger, Handler.Recovery, Handler.securityHeaders,
                            Handler.measureRequest h],
               fullPath := path }
        invoked := [] } = Result.ok s1 ∧
      s1.httpRequests = s.httpRequests.Inc [req.Method, path, toString s1.c.Writer.status] ∧
      s1.httpDuration = s.httpDuration ++ [([req.Method, path], env.elapsed)] ∧
      s1.c.Writer.hasSecurityHeaders := by
  let s0 : State := { s with
    c := { Request := req, Params := params,
           handlers := [Handler.Logger, Handler.Recovery, Handler.securityHeaders,
                        Handler.measureRequest h],
           fullPath := path }
    invoked := [] }
  let sA : State := s0.incr
  let sB : State := (sA.enter Handler.Logger).incr
  let sC : State := (sB.enter Handler.Recovery).incr
  let sD : State := ((sC.enter Handler.securityHeaders).setSecurityHeaders).incr
  let X : State := (sD.enter (Handler.measureRequest h)).enter h
  have hM := run_measured env 0 sD h T hb 3 rfl rfl (Nat.le_refl 4) (by show 4 ≤ 63; decide)
  have hS := run_wrap_ok env 1 sC (sC.enter Handler.securityHeaders).setSecurityHeaders _
    Handler.securityHeaders rfl (fun _ => rfl) hM.1 hM.2
  have hR := run_recovery_ok env 2 sB _ rfl hS (finished_incr _ hM.2)
  have hL := run_wrap_ok env 3 sA (sA.enter Handler.Logger) _ Handler.Logger rfl (fun _ => rfl) hR
    (finished_incr _ (finished_incr _ hM.2))
  have hfr := body_frame env h T hb X
  obtain ⟨f1, f2, f3, f4, _, _, _, f8⟩ := hfr
  refine ⟨_, hL, ?_, ?_, f8 ⟨rfl, rfl, rfl⟩⟩
  · show ((T env X).observe env).httpRequests = _
    simp only [State.observe, f1, f3, f4]
    rfl
  · show ((T env X).observe env).httpDuration = _
    simp only [State.observe, f2, f3, f4]
    rfl

/-- The chain of a protected route of `main`, run from a fresh context for a
request that the gate lets through. -/
theorem Next_protected_chain (env : Env) (s : State) (req : Request)
    (params : List (String × String)) (path : String) (h : Handler) (T : Env → State → State)
    (hb : h.body = some T) (hpass : passesGate env req) :
    ∃ s1, Next env 6 { s with
        c := { Request := req, Params := params,
               handlers := [Handler.Logger, Handler.Recovery, Handler.securityHeaders,
                            Handler.authMiddleware, Handler.measureRequest h],
               fullPath := path }
        invoked := [] } = Result.ok s1 ∧
      s1.httpRequests = s.httpRequests.Inc [req.Method, path, toString s1.c.Writer.status] ∧
      s1.httpDuration = s.httpDuration ++ [([req.Method, path], env.elapsed)] ∧
      s1.c.Writer.hasSecurityHeaders := by
  let s0 : State := { s with
    c := { Request := req, Params := params,
           handlers := [Handler.Logger, Handler.Recovery, Handler.securityHeaders,
                        Handler.authMiddleware, Handler.measureRequest h],
           fullPath := path }
    invoked := [] }
  let sA : State := s0.incr
  let sB : State := (sA.enter Handler.Logger).incr
  let sC : State := (sB.enter Handler.Recovery).incr
  let sD : State := ((sC.enter Handler.securityHeaders).setSecurityHeaders).incr
  obtain ⟨u, hu⟩ := authMiddleware_of_passesGate env req hpass (sD.enter Handler.authMiddleware) rfl
  let s1 : State :=
    { sD.enter Handler.authMiddleware with c := (sD.enter Handler.authMiddleware).c.Set "username" u }
  let sE : State := s1.incr
  let X : State := (sE.enter (Handler.measureRequest h)).enter h
  have hM := run_measured env 0 sE h T hb 4 rfl rfl (Nat.le_refl 5) (by show 5 ≤ 63; decide)
  have hG := run_wrap_ok env 1 sD s1 _ Handler.authMiddleware rfl
    (fun _ => by simp only [call, hu]) hM.1 hM.2
  have hS := run_wrap_ok env 2 sC (sC.enter Handler.securityHeaders).setSecurityHeaders _
    Handler.securityHeaders rfl (fun _ => rfl) hG (finished_incr _ hM.2)
  have hR := run_recovery_ok env 3 sB _ rfl hS (finished_incr _ (finished_incr _ hM.2))
  have hL := run_wrap_ok env 4 sA (sA.enter Handler.Logger) _ Handler.Logger rfl (fun _ => rfl) hR
    (finished_incr _ (finished_incr _ (finished_incr _ hM.2)))
  have hfr := body_frame env h T hb X
  obtain ⟨f1, f2, f3, f4, _, _, _, f8⟩ := hfr
  refine ⟨_, hL, ?_, ?_, f8 ⟨rfl, rfl, rfl⟩⟩
  · show ((T env X).observe env).httpRequests = _
    simp only [State.observe, f1, f3, f4]
    rfl
  · show ((T env X).observe env).httpDuration = _
    simp only [State.observe, f2, f3, f4]
    rfl

theorem findRoute_some (rs : List Route) (method path : String) (r : Route)
    (params : List (String × String)) (h : findRoute rs method path = some (r, params)) :
    r ∈ rs ∧ r.method = method ∧ matchPath r.path path = some params := by
  induction rs with
  | nil => simp [findRoute] at h
  | cons r0 rest ih =>
    unfold findRoute at h
    split at h
    · rename_i hm
      split at h
      · rename_i ps hps
        injection h with h1
        injection h1 with h2 h3
        subst h2
        subst h3
        exact ⟨by simp, hm, hps⟩
      · obtain ⟨a, b, c⟩ := ih h
        exact ⟨by simp [a], b, c⟩
    · obtain ⟨a, b, c⟩ := ih h
      exact ⟨by simp [a], b, c⟩

/-- A request served by a route of `main` that is wrapped in `measureRequest`,
the gate letting it through where the route has one: the request is answered
and `http_requests_total` gains one at the labels (method, route template,
final status). -/
theorem ServeHTTP_measured (env : Env) (s : State) (req : Request) (route : Route)
    (params : List (String × String))
    (hroute : findRoute mainRouter.routes req.Method req.Path = some (route, params))
    (hmeas : ∃ h, Handler.measureRequest h ∈ route.handlers)
    (hgate : Handler.authMiddleware ∈ route.handlers → passesGate env req) :
    ∃ s1, mainRouter.ServeHTTP env s req = Result.ok s1 ∧
      s1.httpRequests = s.httpRequests.Inc [route.method, route.path, toString s1.c.Writer.status] ∧
      s1.httpDuration = s.httpDuration ++ [([route.method, route.path], env.elapsed)] := by
  obtain ⟨hmem, hmethod, _⟩ := findRoute_some _ _ _ _ _ hroute
  obtain ⟨h0, hh0⟩ := hmeas
  unfold Engine.ServeHTTP
  rw [hroute]
  simp only
  simp only [mainRouter, Default, Engine.handle, Engine.Use, Engine.Group, RouterGroup.Use,
    List.nil_append, List.cons_append, List.mem_cons, List.mem_singleton, List.not_mem_nil,
    or_false] at hmem
  rcases hmem with h | h | h | h | h | h | h | h | h <;> subst h
  · simp at hh0
  · simp at hh0
  · simp at hh0
  · obtain ⟨s1, h1, h2, h3⟩ := Next_public_chain env s req params "/login" Handler.login
      login rfl
    simp only at hmethod
    have key : Next env ([Handler.Logger, Handler.Recovery, Handler.securityHeaders, Handler.measureRequest Handler.login].length + 1)
        { s with c := { Request := req, Params := params,
                        handlers := [Handler.Logger, Handler.Recovery, Handler.securityHeaders, Handler.measureRequest Handler.login],
                        fullPath := "/login" }
                 invoked := [] } = Result.ok s1 := h1
    rw [key]
    rw [← hmethod] at h2 h3
    exact ⟨s1.WriteHeaderNow, rfl, h2, h3.1⟩
  · obtain ⟨s1, h1, h2, h3⟩ := Next_protected_chain env s req params "/logs" Handler.getLogsHandler
      getLogsHandler rfl (hgate (by simp))
    simp only at hmethod
    have key : Next env ([Handler.Logger, Handler.Recovery, Handler.securityHeaders, Handler.authMiddleware, Handler.measureRequest Handler.getLogsHandler].length + 1)
        { s with c := { Request := req, Params := params,
                        handlers := [Handler.Logger, Handler.Recovery, Handler.securityHeaders, Handler.authMiddleware, Handler.measureRequest Handler.getLogsHandler],
                        fullPath := "/logs" }
                 invoked := [] } = Result.ok s1 := h1
    rw [key]
    rw [← hmethod] at h2 h3
    exact ⟨s1.WriteHeaderNow, rfl, h2, h3.1⟩
  · obtain ⟨s1, h1, h2, h3⟩ := Next_protected_chain env s req params "/logs" Handler.addLog
      addLog rfl (hgate (by simp))
    simp only at hmethod
    have key : Next env ([Handler.Logger, Handler.Recovery, Handler.securityHeaders, Handler.authMiddleware, Handler.measureRequest Handler.addLog].length + 1)
        { s with c := { Request := req, Params := params,
                        handlers := [Handler.Logger, Handler.Recovery, Handler.securityHeaders, Handler.authMiddleware, Handler.measureRequest Handler.addLog],
                        fullPath := "/logs" }
                 invoked := [] } = Result.ok s1 := h1
    rw [key]
    rw [← hmethod] at h2 h3
    exact ⟨s1.WriteHeaderNow, rfl, h2, h3.1⟩
  · obtain ⟨s1, h1, h2, h3⟩ := Next_protected_chain env s req params "/logs/:id" Handler.deleteLogHandler
      deleteLogHandler rfl (hgate (by simp))
    simp only at hmethod
    have key : Next env ([Handler.Logger, Handler.Recovery, Handler.securityHeaders, Handler.authMiddleware, Handler.measureRequest Handler.deleteLogHandler].length + 1)
        { s with c := { Request := req, Params := params,
                        handlers := [Handler.Logger, Handler.Recovery, Handler.securityHeaders, Handler.authMiddleware, Handler.measureRequest Handler.deleteLogHandler],
                        fullPath := "/logs/:id" }
                 invoked := [] } = Result.ok s1 := h1
    rw [key]
    rw [← hmethod] at h2 h3
    exact ⟨s1.WriteHeaderNow, rfl, h2, h3.1⟩
  · obtain ⟨s1, h1, h2, h3⟩ := Next_protected_chain env s req params "/logs/:id" Handler.updateLogHandler
      updateLogHandler rfl (hgate (by simp))
    simp only at hmethod
    have key : Next env ([Handler.Logger, Handler.Recovery, Handler.securityHeaders, Handler.authMiddleware, Handler.measureRequest Handler.updateLogHandler].length + 1)
        { s with c := { Request := req, Params := params,
                        handlers := [Handler.Logger, Handler.Recovery, Handler.securityHeaders, Handler.authMiddleware, Handler.measureRequest Handler.updateLogHandler],
                        fullPath := "/logs/:id" }
                 invoked := [] } = Result.ok s1 := h1
    rw [key]
    rw [← hmethod] at h2 h3
    exact ⟨s1.WriteHeaderNow, rfl, h2, h3.1⟩
  · obtain ⟨s1, h1, h2, h3⟩ := Next_protected_chain env s req params "/logs/:id" Handler.patchLogHandler
      patchLogHandler rfl (hgate (by simp))
    simp only at hmethod
    have key : Next env ([Handler.Logger, Handler.Recovery, Handler.securityHeaders, Handler.authMiddleware, Handler.measureRequest Handler.patchLogHandler].length + 1)
        { s with c := { Request := req, Params := params,
                        handlers := [Handler.Logger, Handler.Recovery, Handler.securityHeaders, Handler.authMiddleware, Handler.measureRequest Handler.patchLogHandler],
                        fullPath := "/logs/:id" }
                 invoked := [] } = Result.ok s1 := h1
    rw [key]
    rw [← hmethod] at h2 h3
    exact ⟨s1.WriteHeaderNow, rfl, h2, h3.1⟩

/-! ## The security headers -/

theorem passesGate_of_passed (env : Env) (s s1 : State)
    (h : authMiddleware env s = Gate.passed s1) : passesGate env s.c.Request := by
  obtain ⟨tok, token, exp, htok, hsp, hok, hexp, hb, _⟩ := (authMiddleware_passed_iff env s s1).mp h
  exact ⟨_, (authMiddleware_passed_iff env { c := { Request := s.c.Request } } _).mpr
    ⟨tok, token, exp, htok, hsp, hok, hexp, hb, rfl⟩⟩

theorem authMiddleware_panicked_shape (env : Env) (s sp : State)
    (h : authMiddleware env s = Gate.panicked sp) : sp = s := by
  unfold authMiddleware at h
  simp only at h
  split at h
  · cases h
  · split at h
    · cases h
    · unfold verifyToken at h
      split at h
      · cases h
      · split at h
        · exact (Gate.panicked.inj h).symm
        · split at h
          · cases h
          · cases h

theorem run_gate_rejected (env : Env) (fuel : Nat) (s sr : State)
    (hc : s.c.current = some Handler.authMiddleware)
    (hg : authMiddleware env (s.enter Handler.authMiddleware) = Gate.rejected sr)
    (hfin : sr.incr.finished) : run env (fuel + 2) s = Result.ok sr.incr := by
  rw [run, hc]
  simp only [call, hg]
  exact run_finished env fuel _ hfin

theorem run_gate_panicked (env : Env) (fuel : Nat) (s sp : State)
    (hc : s.c.current = some Handler.authMiddleware)
    (hg : authMiddleware env (s.enter Handler.authMiddleware) = Gate.panicked sp) :
    run env (fuel + 1) s = Result.panic sp := by
  rw [run, hc]
  simp only [call, hg]

theorem run_recovery_panic (env : Env) (fuel : Nat) (s s1 : State)
    (hc : s.c.current = some Handler.Recovery)
    (hin : run env (fuel + 1) (s.enter Handler.Recovery).incr = Result.panic s1)
    (hfin : ({ s1 with c := s1.c.AbortWithStatus 500 } : State).incr.finished) :
    run env (fuel + 2) s = Result.ok ({ s1 with c := s1.c.AbortWithStatus 500 } : State).incr := by
  rw [run, hc]
  simp only [call, hin]
  exact run_finished env fuel _ hfin

/-- The chain of a protected route of `main`, run from a fresh context: whether
the gate rejects, panics or lets the request through, the request is answered
and the response carries the security headers. -/
theorem Next_protected_chain_headers (env : Env) (s : State) (req : Request)
    (params : List (String × String)) (path : String) (h : Handler) (T : Env → State → State)
    (hb : h.body = some T) :
    ∃ s1, Next env 6 { s with
        c := { Request := req, Params := params,
               handlers := [Handler.Logger, Handler.Recovery, Handler.securityHeaders,
                            Handler.authMiddleware, Handler.measureRequest h],
               fullPath := path }
        invoked := [] } = Result.ok s1 ∧
      s1.c.Writer.hasSecurityHeaders := by
  let s0 : State := { s with
    c := { Request := req, Params := params,
           handlers := [Handler.Logger, Handler.Recovery, Handler.securityHeaders,
                        Handler.authMiddleware, Handler.measureRequest h],
           fullPath := path }
    invoked := [] }
  let sA : State := s0.incr
  let sB : State := (sA.enter Handler.Logger).incr
  let sC : State := (sB.enter Handler.Recovery).incr
  let sD : State := ((sC.enter Handler.securityHeaders).setSecurityHeaders).incr
  have hsec : (sD.enter Handler.authMiddleware).c.Writer.hasSecurityHeaders := ⟨rfl, rfl, rfl⟩
  cases hg : authMiddleware env (sD.enter Handler.authMiddleware) with
  | passed s1 =>
    obtain ⟨s2, h1, _, _, h4⟩ := Next_protected_chain env s req params path h T hb
      (passesGate_of_passed env _ s1 hg)
    exact ⟨s2, h1, h4⟩
  | rejected sr =>
    obtain ⟨msg, hsr⟩ := authMiddleware_rejected_shape env _ sr hg
    have hfin : sr.incr.finished := by
      subst hsr
      exact ⟨abortIndex + 1, rfl, by show 5 ≤ 63 + 1; decide⟩
    have hG := run_gate_rejected env 1 sD sr rfl hg hfin
    have hS := run_wrap_ok env 2 sC (sC.enter Handler.securityHeaders).setSecurityHeaders _
      Handler.securityHeaders rfl (fun _ => rfl) hG hfin
    have hR := run_recovery_ok env 3 sB _ rfl hS (finished_incr _ hfin)
    have hL := run_wrap_ok env 4 sA (sA.enter Handler.Logger) _ Handler.Logger rfl (fun _ => rfl) hR
      (finished_incr _ (finished_incr _ hfin))
    refine ⟨_, hL, ?_⟩
    show sr.c.Writer.hasSecurityHeaders
    subst hsr
    exact hasSecurityHeaders_JSON _ 401 _ hsec
  | panicked sp =>
    have hsp := authMiddleware_panicked_shape env _ sp hg
    have hfin : ({ sp with c := sp.c.AbortWithStatus 500 } : State).incr.finished := by
      subst hsp
      exact ⟨abortIndex + 1, rfl, by show 5 ≤ 63 + 1; decide⟩
    have hG := run_gate_panicked env 2 sD sp rfl hg
    have hS := run_wrap_panic env 2 sC (sC.enter Handler.securityHeaders).setSecurityHeaders _
      Handler.securityHeaders rfl (fun _ => rfl) hG
    have hR := run_recovery_panic env 3 sB sp rfl hS hfin
    have hL := run_wrap_ok env 4 sA (sA.enter Handler.Logger) _ Handler.Logger rfl (fun _ => rfl) hR
      hfin
    refine ⟨_, hL, ?_⟩
    show (sp.c.AbortWithStatus 500).Writer.hasSecurityHeaders
    subst hsp
    exact hasSecurityHeaders_AbortWithStatus _ 500 hsec

theorem run_last (env : Env) (fuel : Nat) (s sres : State) (h : Handler)
    (hc : s.c.current = some h) (hcall : ∀ next, call env next h s = Result.ok sres)
    (hfin : sres.incr.finished) : run env (fuel + 2) s = Result.ok sres.incr := by
  rw [run, hc]
  simp only [hcall]
  exact run_finished env fuel _ hfin

/-- C6 (what the code does): the route GET /swagger/*any is registered before
`r.Use` installs the security headers, so its chain is Logger, Recovery and the
swagger handler only, and the response carries none of the three headers. -/
theorem swagger_route_lacks_security_headers (env : Env) (s : State) (req : Request)
    (params : List (String × String))
    (hm : req.Method = "GET") (hpath : matchPath "/swagger/*any" req.Path = some params) :
    ∃ s1, mainRouter.ServeHTTP env s req = Result.ok s1 ∧
      s1.invoked = [Handler.Logger, Handler.Recovery, Handler.swagger] ∧
      s1.c.Writer.header = [] ∧
      s1.c.Writer.header.lookup "X-Content-Type-Options" = none ∧
      s1.c.Writer.header.lookup "X-Frame-Options" = none ∧
      s1.c.Writer.header.lookup "X-XSS-Protection" = none ∧
      ¬ s1.c.Writer.hasSecurityHeaders := by
  have hroute : findRoute mainRouter.routes req.Method req.Path =
      some ({ method := "GET", path := "/swagger/*any",
              handlers := [Handler.Logger, Handler.Recovery, Handler.swagger] }, params) := by
    have hr : mainRouter.routes =
        { method := "GET", path := "/swagger/*any",
          handlers := [Handler.Logger, Handler.Recovery, Handler.swagger] } ::
          mainRouter.routes.tail := rfl
    rw [hr, findRoute]
    simp only [hm, hpath, if_true]
  let s0 : State := { s with
    c := { Request := req, Params := params,
           handlers := [Handler.Logger, Handler.Recovery, Handler.swagger],
           fullPath := "/swagger/*any" }
    invoked := [] }
  let sA : State := s0.incr
  let sB : State := (sA.enter Handler.Logger).incr
  let sC : State := (sB.enter Handler.Recovery).incr
  let sres : State := (sC.enter Handler.swagger).writeText (env.swaggerFiles req)
  have hfin : sres.incr.finished := ⟨3, rfl, Nat.le_refl 3⟩
  have hW := run_last env 0 sC sres Handler.swagger rfl (fun _ => rfl) hfin
  have hR := run_recovery_ok env 1 sB _ rfl hW hfin
  have hL := run_wrap_ok env 2 sA (sA.enter Handler.Logger) _ Handler.Logger rfl (fun _ => rfl) hR
    (finished_incr _ hfin)
  have key : Next env ([Handler.Logger, Handler.Recovery, Handler.swagger].length + 1) s0 =
      Result.ok sres.incr.incr.incr := hL
  unfold Engine.ServeHTTP
  rw [hroute]
  simp only
  rw [key]
  have hhdr : sres.incr.incr.incr.WriteHeaderNow.c.Writer.header = [] := by
    show (ResponseWriter.WriteHeader { } (env.swaggerFiles req).1).header = []
    unfold ResponseWriter.WriteHeader
    rfl
  refine ⟨_, rfl, rfl, hhdr, ?_, ?_, ?_, ?_⟩
  · rw [hhdr]; rfl
  · rw [hhdr]; rfl
  · rw [hhdr]; rfl
  · intro hsec
    have h1 := hsec.1
    rw [hhdr] at h1
    cases h1

theorem swagger_route_lacks_security_headers_witness :
    ∃ s1, mainRouter.ServeHTTP demoEnv initState { Method := "GET", Path := "/swagger/index.html" } =
        Result.ok s1 ∧
      s1.c.Writer.header.lookup "X-Content-Type-Options" = none ∧
      s1.c.Writer.header.lookup "X-Frame-Options" = none ∧
      s1.c.Writer.header.lookup "X-XSS-Protection" = none :=
  have h := swagger_route_lacks_security_headers demoEnv initState
    { Method := "GET", Path := "/swagger/index.html" } [("any", "/index.html")] rfl (by decide)
  match h with
  | ⟨s1, h1, _, _, h4, h5, h6, _⟩ => ⟨s1, h1, h4, h5, h6⟩

/-- The chain of an unprotected, unmeasured route of `main` (GET /metrics,
GET /health), run from a fresh context. -/
theorem Next_plain_chain (env : Env) (s : State) (req : Request)
    (params : List (String × String)) (path : String) (h : Handler) (f : State → State)
    (hcall : ∀ next t, call env next h t = Result.ok (f (t.enter h)))
    (hidx : ∀ t, (f t).c.index = t.c.index ∧ (f t).c.handlers = t.c.handlers)
    (hsec : ∀ t, t.c.Writer.hasSecurityHeaders → (f t).c.Writer.hasSecurityHeaders)
    (hmet : ∀ t, (f t).httpRequests = t.httpRequests ∧ (f t).httpDuration = t.httpDuration) :
    ∃ s1, Next env 5 { s with
        c := { Request := req, Params := params,
               handlers := [Handler.Logger, Handler.Recovery, Handler.securityHeaders, h],
               fullPath := path }
        invoked := [] } = Result.ok s1 ∧
      s1.c.Writer.hasSecurityHeaders ∧
      s1.httpRequests = s.httpRequests ∧ s1.httpDuration = s.httpDuration := by
  let s0 : State := { s with
    c := { Request := req, Params := params,
           handlers := [Handler.Logger, Handler.Recovery, Handler.securityHeaders, h],
           fullPath := path }
    invoked := [] }
  let sA : State := s0.incr
  let sB : State := (sA.enter Handler.Logger).incr
  let sC : State := (sB.enter Handler.Recovery).incr
  let sD : State := ((sC.enter Handler.securityHeaders).setSecurityHeaders).incr
  have hfin : (f (sD.enter h)).incr.finished := by
    refine ⟨4, ?_, ?_⟩
    · simp only [State.incr, Context.incr, (hidx (sD.enter h)).1]
      rfl
    · simp only [State.incr, Context.incr, (hidx (sD.enter h)).2]
      exact Nat.le_refl 4
  have hW := run_last env 0 sD (f (sD.enter h)) h rfl (fun next => hcall next sD) hfin
  have hS := run_wrap_ok env 1 sC (sC.enter Handler.securityHeaders).setSecurityHeaders _
    Handler.securityHeaders rfl (fun _ => rfl) hW hfin
  have hR := run_recovery_ok env 2 sB _ rfl hS (finished_incr _ hfin)
  have hL := run_wrap_ok env 3 sA (sA.enter Handler.Logger) _ Handler.Logger rfl (fun _ => rfl) hR
    (finished_incr _ (finished_incr _ hfin))
  exact ⟨_, hL, hsec (sD.enter h) ⟨rfl, rfl, rfl⟩, (hmet (sD.enter h)).1, (hmet (sD.enter h)).2⟩

/-- Every route of `main` registered after `r.Use` installed the security
headers answers every request, whether served, rejected by the gate or ended
by a recovered panic, with the three security headers. -/
theorem ServeHTTP_security_headers (env : Env) (s : State) (req : Request) (route : Route)
    (params : List (String × String))
    (hroute : findRoute mainRouter.routes req.Method req.Path = some (route, params))
    (huse : Handler.securityHeaders ∈ route.handlers) :
    ∃ s1, mainRouter.ServeHTTP env s req = Result.ok s1 ∧ s1.c.Writer.hasSecurityHeaders := by
  obtain ⟨hmem, _, _⟩ := findRoute_some _ _ _ _ _ hroute
  unfold Engine.ServeHTTP
  rw [hroute]
  simp only
  simp only [mainRouter, Default, Engine.handle, Engine.Use, Engine.Group, RouterGroup.Use,
    List.nil_append, List.cons_append, List.mem_cons, List.mem_singleton, List.not_mem_nil,
    or_false] at hmem
  rcases hmem with h | h | h | h | h | h | h | h | h <;> subst h
  · simp at huse
  · obtain ⟨s1, h1, h2⟩ := Next_plain_chain env s req params "/metrics" Handler.promhttp
      (fun t => t.writeText (env.exposition t.c.Request)) (fun _ _ => rfl)
      (fun t => ⟨rfl, rfl⟩) (fun t ht => hasSecurityHeaders_WriteHeader t.c.Writer _ ht)
      (fun t => ⟨rfl, rfl⟩)
    have key : Next env ([Handler.Logger, Handler.Recovery, Handler.securityHeaders,
        Handler.promhttp].length + 1)
        { s with c := { Request := req, Params := params,
                        handlers := [Handler.Logger, Handler.Recovery, Handler.securityHeaders,
                                     Handler.promhttp],
                        fullPath := "/metrics" }
                 invoked := [] } = Result.ok s1 := h1
    rw [key]
    exact ⟨s1.WriteHeaderNow, rfl, h2.1⟩
  · obtain ⟨s1, h1, h2⟩ := Next_plain_chain env s req params "/health" Handler.health
      (fun t => t.JSON 200 [("status", "ok")]) (fun _ _ => rfl)
      (fun t => ⟨rfl, rfl⟩) (fun t ht => hasSecurityHeaders_JSON t.c 200 _ ht)
      (fun t => ⟨rfl, rfl⟩)
    have key : Next env ([Handler.Logger, Handler.Recovery, Handler.securityHeaders,
        Handler.health].length + 1)
        { s with c := { Request := req, Params := params,
                        handlers := [Handler.Logger, Handler.Recovery, Handler.securityHeaders,
                                     Handler.health],
                        fullPath := "/health" }
                 invoked := [] } = Result.ok s1 := h1
    rw [key]
    exact ⟨s1.WriteHeaderNow, rfl, h2.1⟩
  · obtain ⟨s1, h1, _, _, h4⟩ := Next_public_chain env s req params "/login" Handler.login
      login rfl
    have key : Next env ([Handler.Logger, Handler.Recovery, Handler.securityHeaders,
        Handler.measureRequest Handler.login].length + 1)
        { s with c := { Request := req, Params := params,
                        handlers := [Handler.Logger, Handler.Recovery, Handler.securityHeaders,
                                     Handler.measureRequest Handler.login],
                        fullPath := "/login" }
                 invoked := [] } = Result.ok s1 := h1
    rw [key]
    exact ⟨s1.WriteHeaderNow, rfl, h4⟩
  · obtain ⟨s1, h1, h2⟩ := Next_protected_chain_headers env s req params "/logs"
      Handler.getLogsHandler getLogsHandler rfl
    have key : Next env ([Handler.Logger, Handler.Recovery, Handler.securityHeaders,
        Handler.authMiddleware, Handler.measureRequest Handler.getLogsHandler].length + 1)
        { s with c := { Request := req, Params := params,
                        handlers := [Handler.Logger, Handler.Recovery, Handler.securityHeaders,
        Handler.authMiddleware, Handler.measureRequest Handler.getLogsHandler],
                        fullPath := "/logs" }
                 invoked := [] } = Result.ok s1 := h1
    rw [key]
    exact ⟨s1.WriteHeaderNow, rfl, h2⟩
  · obtain ⟨s1, h1, h2⟩ := Next_protected_chain_headers env s req params "/logs"
      Handler.addLog addLog rfl
    have key : Next env ([Handler.Logger, Handler.Recovery, Handler.securityHeaders,
        Handler.authMiddleware, Handler.measureRequest Handler.addLog].length + 1)
        { s with c := { Request := req, Params := params,
                        handlers := [Handler.Logger, Handler.Recovery, Handler.securityHeaders,
        Handler.authMiddleware, Handler.measureRequest Handler.addLog],
                        fullPath := "/logs" }
                 invoked := [] } = Result.ok s1 := h1
    rw [key]
    exact ⟨s1.WriteHeaderNow, rfl, h2⟩
  · obtain ⟨s1, h1, h2⟩ := Next_protected_chain_headers env s req params "/logs/:id"
      Handler.deleteLogHandler deleteLogHandler rfl
    have key : Next env ([Handler.Logger, Handler.Recovery, Handler.securityHeaders,
        Handler.authMiddleware, Handler.measureRequest Handler.deleteLogHandler].length + 1)
        { s with c := { Request := req, Params := params,
                        handlers := [Handler.Logger, Handler.Recovery, Handler.securityHeaders,
        Handler.authMiddleware, Handler.measureRequest Handler.deleteLogHandler],
                        fullPath := "/logs/:id" }
                 invoked := [] } = Result.ok s1 := h1
    rw [key]
    exact ⟨s1.WriteHeaderNow, rfl, h2⟩
  · obtain ⟨s1, h1, h2⟩ := Next_protected_chain_headers env s req params "/logs/:id"
      Handler.updateLogHandler updateLogHandler rfl
    have key : Next env ([Handler.Logger, Handler.Recovery, Handler.securityHeaders,
        Handler.authMiddleware, Handler.measureRequest Handler.updateLogHandler].length + 1)
        { s with c := { Request := req, Params := params,
                        handlers := [Handler.Logger, Handler.Recovery, Handler.securityHeaders,
        Handler.authMiddleware, Handler.measureRequest Handler.updateLogHandler],
                        fullPath := "/logs/:id" }
                 invoked := [] } = Result.ok s1 := h1
    rw [key]
    exact ⟨s1.WriteHeaderNow, rfl, h2⟩
  · obtain ⟨s1, h1, h2⟩ := Next_protected_chain_headers env s req params "/logs/:id"
      Handler.patchLogHandler patchLogHandler rfl
    have key : Next env ([Handler.Logger, Handler.Recovery, Handler.securityHeaders,
        Handler.authMiddleware, Handler.measureRequest Handler.patchLogHandler].length + 1)
        { s with c := { Request := req, Params := params,
                        handlers := [Handler.Logger, Handler.Recovery, Handler.securityHeaders,
        Handler.authMiddleware, Handler.measureRequest Handler.patchLogHandler],
                        fullPath := "/logs/:id" }
                 invoked := [] } = Result.ok s1 := h1
    rw [key]
    exact ⟨s1.WriteHeaderNow, rfl, h2⟩

/-! ## What `http_requests_total` counts -/

theorem authMiddleware_rejected_transfer (env : Env) (s t sr : State)
    (hreq : t.c.Request = s.c.Request) (h : authMiddleware env s = Gate.rejected sr) :
    ∃ msg, authMiddleware env t = Gate.rejected (t.JSON 401 [("error", msg)]).Abort := by
  have hh : t.c.GetHeader "Authorization" = s.c.GetHeader "Authorization" := by
    simp only [Context.GetHeader, hreq]
  by_cases h0 : s.c.GetHeader "Authorization" = ""
  · exact ⟨_, authMiddleware_missing env t (hh.trans h0)⟩
  · by_cases hform : ((Split (s.c.GetHeader "Authorization") ' ').length = 2 ∧
        (Split (s.c.GetHeader "Authorization") ' ').headD "" = "Bearer")
    · obtain ⟨tok, htok, hsp⟩ := (split_bearer_iff _).mp hform
      rw [authMiddleware_bearer env s tok htok hsp] at h
      rw [authMiddleware_bearer env t tok (hh.trans htok) hsp]
      unfold verifyToken at h ⊢
      cases hp : ParseWithClaims env.jwt tok env.jwtKey env.parseNow with
      | error e => exact ⟨_, rfl⟩
      | ok token =>
        rw [hp] at h
        simp only at h ⊢
        cases hexp : token.Claims.ExpiresAt with
        | none =>
          rw [hexp] at h
          cases h
        | some exp =>
          rw [hexp] at h
          simp only at h ⊢
          by_cases hb : Before exp env.now = true
          · rw [if_pos hb]
            exact ⟨_, rfl⟩
          · rw [if_neg hb] at h
            cases h
    · rw [← hh] at h0 hform
      exact ⟨_, authMiddleware_malformed env t h0 hform⟩

/-- The chain of a protected route of `main`, run from a fresh context for a
request that the gate rejects: the answer is 401 and the wrapped handler and
its recording are never reached. -/
theorem Next_protected_chain_rejected (env : Env) (s : State) (req : Request)
    (params : List (String × String)) (path : String) (h : Handler)
    (hrej : rejectedByGate env req) :
    ∃ s1, Next env 6 { s with
        c := { Request := req, Params := params,
               handlers := [Handler.Logger, Handler.Recovery, Handler.securityHeaders,
                            Handler.authMiddleware, Handler.measureRequest h],
               fullPath := path }
        invoked := [] } = Result.ok s1 ∧
      s1.c.Writer.status = 401 ∧
      s1.httpRequests = s.httpRequests ∧ s1.httpDuration = s.httpDuration ∧ s1.db = s.db := by
  let s0 : State := { s with
    c := { Request := req, Params := params,
           handlers := [Handler.Logger, Handler.Recovery, Handler.securityHeaders,
                        Handler.authMiddleware, Handler.measureRequest h],
           fullPath := path }
    invoked := [] }
  let sA : State := s0.incr
  let sB : State := (sA.enter Handler.Logger).incr
  let sC : State := (sB.enter Handler.Recovery).incr
  let sD : State := ((sC.enter Handler.securityHeaders).setSecurityHeaders).incr
  obtain ⟨sr0, hr0⟩ := hrej
  obtain ⟨msg, hg⟩ := authMiddleware_rejected_transfer env { c := { Request := req } }
    (sD.enter Handler.authMiddleware) sr0 rfl hr0
  have hfin : ((sD.enter Handler.authMiddleware).JSON 401 [("error", msg)]).Abort.incr.finished :=
    ⟨abortIndex + 1, rfl, by show 5 ≤ 63 + 1; decide⟩
  have hG := run_gate_rejected env 1 sD _ rfl hg hfin
  have hS := run_wrap_ok env 2 sC (sC.enter Handler.securityHeaders).setSecurityHeaders _
    Handler.securityHeaders rfl (fun _ => rfl) hG hfin
  have hR := run_recovery_ok env 3 sB _ rfl hS (finished_incr _ hfin)
  have hL := run_wrap_ok env 4 sA (sA.enter Handler.Logger) _ Handler.Logger rfl (fun _ => rfl) hR
    (finished_incr _ (finished_incr _ hfin))
  exact ⟨_, hL, rfl, rfl, rfl, rfl⟩

/-- The chain of route GET /swagger/*any, run from a fresh context. -/
theorem Next_swagger_chain (env : Env) (s : State) (req : Request)
    (params : List (String × String)) :
    ∃ s1, Next env 4 { s with
        c := { Request := req, Params := params,
               handlers := [Handler.Logger, Handler.Recovery, Handler.swagger],
               fullPath := "/swagger/*any" }
        invoked := [] } = Result.ok s1 ∧
      s1.httpRequests = s.httpRequests ∧ s1.httpDuration = s.httpDuration := by
  let s0 : State := { s with
    c := { Request := req, Params := params,
           handlers := [Handler.Logger, Handler.Recovery, Handler.swagger],
           fullPath := "/swagger/*any" }
    invoked := [] }
  let sA : State := s0.incr
  let sB : State := (sA.enter Handler.Logger).incr
  let sC : State := (sB.enter Handler.Recovery).incr
  let sres : State := (sC.enter Handler.swagger).writeText (env.swaggerFiles req)
  have hfin : sres.incr.finished := ⟨3, rfl, Nat.le_refl 3⟩
  have hW := run_last env 0 sC sres Handler.swagger rfl (fun _ => rfl) hfin
  have hR := run_recovery_ok env 1 sB _ rfl hW hfin
  have hL := run_wrap_ok env 2 sA (sA.enter Handler.Logger) _ Handler.Logger rfl (fun _ => rfl) hR
    (finished_incr _ hfin)
  exact ⟨_, hL, rfl, rfl⟩

/-- A request that the gate of a protected route of `main` rejects is answered
401 and changes no sample. -/
theorem ServeHTTP_rejected (env : Env) (s : State) (req : Request) (route : Route)
    (params : List (String × String))
    (hroute : findRoute mainRouter.routes req.Method req.Path = some (route, params))
    (hgate : Handler.authMiddleware ∈ route.handlers) (hrej : rejectedByGate env req) :
    ∃ s1, mainRouter.ServeHTTP env s req = Result.ok s1 ∧ s1.c.Writer.status = 401 ∧
      s1.httpRequests = s.httpRequests ∧ s1.httpDuration = s.httpDuration ∧ s1.db = s.db := by
  obtain ⟨hmem, _, _⟩ := findRoute_some _ _ _ _ _ hroute
  unfold Engine.ServeHTTP
  rw [hroute]
  simp only
  simp only [mainRouter, Default, Engine.handle, Engine.Use, Engine.Group, RouterGroup.Use,
    List.nil_append, List.cons_append, List.mem_cons, List.mem_singleton, List.not_mem_nil,
    or_false] at hmem
  rcases hmem with h | h | h | h | h | h | h | h | h <;> subst h
  · simp at hgate
  · simp at hgate
  · simp at hgate
  · simp at hgate
  · obtain ⟨s1, h1, h2, h3, h4, h5⟩ := Next_protected_chain_rejected env s req params "/logs"
      Handler.getLogsHandler hrej
    have key : Next env ([Handler.Logger, Handler.Recovery, Handler.securityHeaders,
        Handler.authMiddleware, Handler.measureRequest Handler.getLogsHandler].length + 1)
        { s with c := { Request := req, Params := params,
                        handlers := [Handler.Logger, Handler.Recovery, Handler.securityHeaders,
        Handler.authMiddleware, Handler.measureRequest Handler.getLogsHandler],
                        fullPath := "/logs" }
                 invoked := [] } = Result.ok s1 := h1
    rw [key]
    exact ⟨s1.WriteHeaderNow, rfl, h2, h3, h4, h5⟩
  · obtain ⟨s1, h1, h2, h3, h4, h5⟩ := Next_protected_chain_rejected env s req params "/logs"
      Handler.addLog hrej
    have key : Next env ([Handler.Logger, Handler.Recovery, Handler.securityHeaders,
        Handler.authMiddleware, Handler.measureRequest Handler.addLog].length + 1)
        { s with c := { Request := req, Params := params,
                        handlers := [Handler.Logger, Handler.Recovery, Handler.securityHeaders,
        Handler.authMiddleware, Handler.measureRequest Handler.addLog],
                        fullPath := "/logs" }
                 invoked := [] } = Result.ok s1 := h1
    rw [key]
    exact ⟨s1.WriteHeaderNow, rfl, h2, h3, h4, h5⟩
  · obtain ⟨s1, h1, h2, h3, h4, h5⟩ := Next_protected_chain_rejected env s req params "/logs/:id"
      Handler.deleteLogHandler hrej
    have key : Next env ([Handler.Logger, Handler.Recovery, Handler.securityHeaders,
        Handler.authMiddleware, Handler.measureRequest Handler.deleteLogHandler].length + 1)
        { s with c := { Request := req, Params := params,
                        handlers := [Handler.Logger, Handler.Recovery, Handler.securityHeaders,
        Handler.authMiddleware, Handler.measureRequest Handler.deleteLogHandler],
                        fullPath := "/logs/:id" }
                 invoked := [] } = Result.ok s1 := h1
    rw [key]
    exact ⟨s1.WriteHeaderNow, rfl, h2, h3, h4, h5⟩
  · obtain ⟨s1, h1, h2, h3, h4, h5⟩ := Next_protected_chain_rejected env s req params "/logs/:id"
      Handler.updateLogHandler hrej
    have key : Next env ([Handler.Logger, Handler.Recovery, Handler.securityHeaders,
        Handler.authMiddleware, Handler.measureRequest Handler.updateLogHandler].length + 1)
        { s with c := { Request := req, Params := params,
                        handlers := [Handler.Logger, Handler.Recovery, Handler.securityHeaders,
        Handler.authMiddleware, Handler.measureRequest Handler.updateLogHandler],
                        fullPath := "/logs/:id" }
                 invoked := [] } = Result.ok s1 := h1
    rw [key]
    exact ⟨s1.WriteHeaderNow, rfl, h2, h3, h4, h5⟩
  · obtain ⟨s1, h1, h2, h3, h4, h5⟩ := Next_protected_chain_rejected env s req params "/logs/:id"
      Handler.patchLogHandler hrej
    have key : Next env ([Handler.Logger, Handler.Recovery, Handler.securityHeaders,
        Handler.authMiddleware, Handler.measureRequest Handler.patchLogHandler].length + 1)
        { s with c := { Request := req, Params := params,
                        handlers := [Handler.Logger, Handler.Recovery, Handler.securityHeaders,
        Handler.authMiddleware, Handler.measureRequest Handler.patchLogHandler],
                        fullPath := "/logs/:id" }
                 invoked := [] } = Result.ok s1 := h1
    rw [key]
    exact ⟨s1.WriteHeaderNow, rfl, h2, h3, h4, h5⟩

/-- A request to a route of `main` that is not wrapped in `measureRequest`
(GET /swagger/*any, GET /metrics, GET /health) is answered and changes no
sample. -/
theorem ServeHTTP_unmeasured (env : Env) (s : State) (req : Request) (route : Route)
    (params : List (String × String))
    (hroute : findRoute mainRouter.routes req.Method req.Path = some (route, params))
    (hplain : ∀ h, Handler.measureRequest h ∉ route.handlers) :
    ∃ s1, mainRouter.ServeHTTP env s req = Result.ok s1 ∧
      s1.httpRequests = s.httpRequests ∧ s1.httpDuration = s.httpDuration := by
  obtain ⟨hmem, _, _⟩ := findRoute_some _ _ _ _ _ hroute
  unfold Engine.ServeHTTP
  rw [hroute]
  simp only
  simp only [mainRouter, Default, Engine.handle, Engine.Use, Engine.Group, RouterGroup.Use,
    List.nil_append, List.cons_append, List.mem_cons, List.mem_singleton, List.not_mem_nil,
    or_false] at hmem
  rcases hmem with h | h | h | h | h | h | h | h | h <;> subst h
  · obtain ⟨s1, h1, h2, h3⟩ := Next_swagger_chain env s req params
    have key : Next env ([Handler.Logger, Handler.Recovery, Handler.swagger].length + 1)
        { s with c := { Request := req, Params := params,
                        handlers := [Handler.Logger, Handler.Recovery, Handler.swagger],
                        fullPath := "/swagger/*any" }
                 invoked := [] } = Result.ok s1 := h1
    rw [key]
    exact ⟨s1.WriteHeaderNow, rfl, h2, h3⟩
  · obtain ⟨s1, h1, _, h2, h3⟩ := Next_plain_chain env s req params "/metrics" Handler.promhttp
      (fun t => t.writeText (env.exposition t.c.Request)) (fun _ _ => rfl)
      (fun t => ⟨rfl, rfl⟩) (fun t ht => hasSecurityHeaders_WriteHeader t.c.Writer _ ht)
      (fun t => ⟨rfl, rfl⟩)
    have key : Next env ([Handler.Logger, Handler.Recovery, Handler.securityHeaders,
        Handler.promhttp].length + 1)
        { s with c := { Request := req, Params := params,
                        handlers := [Handler.Logger, Handler.Recovery, Handler.securityHeaders,
                                     Handler.promhttp],
                        fullPath := "/metrics" }
                 invoked := [] } = Result.ok s1 := h1
    rw [key]
    exact ⟨s1.WriteHeaderNow, rfl, h2, h3⟩
  · obtain ⟨s1, h1, _, h2, h3⟩ := Next_plain_chain env s req params "/health" Handler.health
      (fun t => t.JSON 200 [("status", "ok")]) (fun _ _ => rfl)
      (fun t => ⟨rfl, rfl⟩) (fun t ht => hasSecurityHeaders_JSON t.c 200 _ ht)
      (fun t => ⟨rfl, rfl⟩)
    have key : Next env ([Handler.Logger, Handler.Recovery, Handler.securityHeaders,
        Handler.health].length + 1)
        { s with c := { Request := req, Params := params,
                        handlers := [Handler.Logger, Handler.Recovery, Handler.securityHeaders,
                                     Handler.health],
                        fullPath := "/health" }
                 invoked := [] } = Result.ok s1 := h1
    rw [key]
    exact ⟨s1.WriteHeaderNow, rfl, h2, h3⟩
  · exact absurd (by simp) (hplain Handler.login)
  · exact absurd (by simp) (hplain Handler.getLogsHandler)
  · exact absurd (by simp) (hplain Handler.addLog)
  · exact absurd (by simp) (hplain Handler.deleteLogHandler)
  · exact absurd (by simp) (hplain Handler.updateLogHandler)
  · exact absurd (by simp) (hplain Handler.patchLogHandler)

/-- C7 as stated fails: a GET /logs request without token is answered 401 by
the gate and leaves the count of (GET, /logs) at 0, and a served GET /health
request leaves the count of (GET, /health) at 0. -/
theorem unmeasured_requests_not_counted :
    (∃ s1, mainRouter.serveAll initState [(demoEnv, { Method := "GET", Path := "/logs" })] =
        Result.ok s1 ∧ s1.c.Writer.status = 401 ∧
        s1.httpRequests.total "GET" "/logs" = 0 ∧
        s1.httpRequests.total "GET" "/logs" ≠ initState.httpRequests.total "GET" "/logs" + 1) ∧
    (∃ s1, mainRouter.serveAll initState [(demoEnv, { Method := "GET", Path := "/health" })] =
        Result.ok s1 ∧ s1.c.Writer.status = 200 ∧
        s1.httpRequests.total "GET" "/health" = 0 ∧
        s1.httpRequests.total "GET" "/health" ≠ initState.httpRequests.total "GET" "/health" + 1) :=
  ⟨⟨_, rfl, rfl, rfl, by decide⟩, ⟨_, rfl, rfl, rfl, by decide⟩⟩

/-- C7 (amended): for every sequence of requests served one after another by
a route of `main` that is wrapped in `measureRequest` (POST /login and the five
/logs routes), each let through by the gate where the route has one, all are
answered, the count of `http_requests_total` for the method and route template,
summed over the status labels, grows by the number of requests, and each
request adds exactly one to the sample labelled with its final status and
changes no other sample.  A request to a protected route that the gate rejects
is answered 401 and changes no sample, and a request to a route that is not
wrapped in `measureRequest` (GET /swagger/*any, GET /metrics, GET /health) is
answered and changes no sample. -/
theorem measured_requests_counted (route : Route) (reqs : List (Env × Request)) (s : State)
    (hmeas : ∃ h, Handler.measureRequest h ∈ route.handlers)
    (hall : ∀ er ∈ reqs,
      (∃ params, findRoute mainRouter.routes er.2.Method er.2.Path = some (route, params)) ∧
      (Handler.authMiddleware ∈ route.handlers → passesGate er.1 er.2)) :
    (∃ s1, mainRouter.serveAll s reqs = Result.ok s1 ∧
      s1.httpRequests.total route.method route.path =
        s.httpRequests.total route.method route.path + reqs.length) ∧
    (∀ er ∈ reqs, ∀ s0 : State, ∃ s1 status, mainRouter.ServeHTTP er.1 s0 er.2 = Result.ok s1 ∧
      status = toString s1.c.Writer.status ∧
      s1.httpRequests.value [route.method, route.path, status] =
        s0.httpRequests.value [route.method, route.path, status] + 1 ∧
      ∀ l, l ≠ [route.method, route.path, status] →
        s1.httpRequests.value l = s0.httpRequests.value l) ∧
    (∀ (env : Env) (s0 : State) (req : Request) (r : Route) (params : List (String × String)),
      findRoute mainRouter.routes req.Method req.Path = some (r, params) →
      Handler.authMiddleware ∈ r.handlers → rejectedByGate env req →
      ∃ s1, mainRouter.ServeHTTP env s0 req = Result.ok s1 ∧ s1.c.Writer.status = 401 ∧
        s1.httpRequests = s0.httpRequests) ∧
    (∀ (env : Env) (s0 : State) (req : Request) (r : Route) (params : List (String × String)),
      findRoute mainRouter.routes req.Method req.Path = some (r, params) →
      (∀ h, Handler.measureRequest h ∉ r.handlers) →
      ∃ s1, mainRouter.ServeHTTP env s0 req = Result.ok s1 ∧
        s1.httpRequests = s0.httpRequests) := by
  refine ⟨?_, ?_, ?_, ?_⟩
  · induction reqs generalizing s with
    | nil => exact ⟨s, rfl, rfl⟩
    | cons er rest ih =>
      obtain ⟨⟨params, hroute⟩, hgate⟩ := hall er (by simp)
      obtain ⟨s1, h1, h2, _⟩ := ServeHTTP_measured er.1 s er.2 route params hroute hmeas hgate
      obtain ⟨s2, h3, h4⟩ := ih s1 (fun e he => hall e (by simp [he]))
      refine ⟨s2, ?_, ?_⟩
      · obtain ⟨env, req⟩ := er
        simp only [Engine.serveAll]
        simp only at h1
        rw [h1]
        exact h3
      · rw [h4, h2, total_Inc]
        simp only [List.length_cons]
        omega
  · intro er her s0
    obtain ⟨⟨params, hroute⟩, hgate⟩ := hall er her
    obtain ⟨s1, h1, h2, _⟩ := ServeHTTP_measured er.1 s0 er.2 route params hroute hmeas hgate
    refine ⟨s1, toString s1.c.Writer.status, h1, rfl, ?_, ?_⟩
    · rw [h2, value_Inc_self]
    · intro l hl
      rw [h2, value_Inc_other _ _ _ hl]
  · intro env s0 req r params hroute hgate hrej
    obtain ⟨s1, h1, h2, h3, _⟩ := ServeHTTP_rejected env s0 req r params hroute hgate hrej
    exact ⟨s1, h1, h2, h3⟩
  · intro env s0 req r params hroute hplain
    obtain ⟨s1, h1, h2, _⟩ := ServeHTTP_unmeasured env s0 req r params hroute hplain
    exact ⟨s1, h1, h2⟩

theorem measured_requests_counted_witness :
    ∃ s1, mainRouter.serveAll initState
        [(demoEnv, postLogRequest "hello"), (demoEnv, postLogRequest "")] = Result.ok s1 ∧
      s1.httpRequests.total "POST" "/logs" = initState.httpRequests.total "POST" "/logs" + 2 :=
  (measured_requests_counted postLogsRoute
    [(demoEnv, postLogRequest "hello"), (demoEnv, postLogRequest "")] initState
    ⟨Handler.addLog, by decide⟩
    (by
      intro er her
      simp only [List.mem_cons, List.mem_singleton, List.not_mem_nil, or_false] at her
      rcases her with rfl | rfl
      · exact ⟨⟨[], rfl⟩, fun _ => ⟨_, rfl⟩⟩
      · exact ⟨⟨[], rfl⟩, fun _ => ⟨_, rfl⟩⟩)).1

/-! ## The router of `main` on the tokens of the concrete environment -/

/-- Through the router of `main`, a correctly signed token whose expiration
(500 s) lies before the clock readings (1000 s) is answered 401 with
"Invalid token"; the handler is not entered and nothing is counted. -/
theorem ServeHTTP_expired_token :
    ∃ s1, mainRouter.ServeHTTP demoEnv initState
        { Method := "GET", Path := "/logs", Header := [("Authorization", "Bearer hdr.stale.good")] } =
        Result.ok s1 ∧
      s1.c.Writer.status = 401 ∧
      s1.c.Writer.body = [Payload.obj [("error", "Invalid token")]] ∧
      s1.invoked = [Handler.Logger, Handler.Recovery, Handler.securityHeaders,
                    Handler.authMiddleware] ∧
      s1.httpRequests = [] :=
  ⟨_, rfl, rfl, rfl, rfl, rfl⟩

/-- Through the router of `main`, a correctly signed token without `exp` makes
the gate panic; `Recovery` answers 500 with an empty body, the handler is not
entered and nothing is counted. -/
theorem ServeHTTP_token_without_exp :
    ∃ s1, mainRouter.ServeHTTP demoEnv initState
        { Method := "GET", Path := "/logs", Header := [("Authorization", "Bearer hdr.noexp.good")] } =
        Result.ok s1 ∧
      s1.c.Writer.status = 500 ∧
      s1.c.Writer.body = [] ∧
      s1.invoked = [Handler.Logger, Handler.Recovery, Handler.securityHeaders,
                    Handler.authMiddleware] ∧
      s1.httpRequests = [] :=
  ⟨_, rfl, rfl, rfl, rfl, rfl⟩

/-- Through the router of `main`: a login, then a POST /logs with the issued
token, then a GET /logs, which lists the message. -/
theorem ServeHTTP_login_add_get :
    ∃ s1 s2 s3,
      mainRouter.ServeHTTP demoEnv initState
        { Method := "POST", Path := "/login",
          Body := Body.object [("username", JSONValue.string "admin"),
                               ("password", JSONValue.string "password")] } = Result.ok s1 ∧
      s1.c.Writer.body = [Payload.obj [("token", "hdr.admin.good")]] ∧
      mainRouter.ServeHTTP demoEnv s1 (postLogRequest "hello") = Result.ok s2 ∧
      s2.c.Writer.status = 201 ∧
      mainRouter.ServeHTTP demoEnv s2
        { Method := "GET", Path := "/logs", Header := [("Authorization", "Bearer hdr.admin.good")] } =
        Result.ok s3 ∧
      s3.c.Writer.status = 200 ∧
      s3.c.Writer.body = [Payload.logs [{ ID := 1, Level := "", Message := "hello", Service := "",
                                          CreatedAt := "2025-02-26T20:26:06Z" }]] ∧
      s3.httpRequests = [(["POST", "/login", "200"], 1), (["POST", "/logs", "201"], 1),
                         (["GET", "/logs", "200"], 1)] :=
  ⟨_, _, _, rfl, rfl, rfl, rfl, rfl, rfl, by decide, rfl⟩

end LogMonitoringAPI
